import Mathlib

/-!
clickhouse-ttl-tool: a shallow embedding and its verified properties.

The embedding follows the Go sources package by package:

* `pkg/utils/escape.go`      : `EscapeIdentifier`
* `pkg/detector/detector.go` : `DetectTimeColumn`, `isDateTimeType`, `isNanoTimestamp`
* `pkg/executor/executor.go` : `Execute`, `generateTTLSQL`
* `pkg/reporter/reporter.go` : `AddResult`, `PrintSummary`
* `cmd/root.go`              : `run` and its table loop

Go strings are Lean strings (read through their character lists), Go `int`
values are integers, `error` values are an inductive type with `nil` as
`none`, and the database connection is an explicit state of arbitrary type
that every `Query` and `Exec` call reads and replaces.
-/

namespace TTLTool

/-! ## Library functions used by the program -/

/-- The backtick character (code point 96), the identifier delimiter. -/
def backtick : Char := Char.ofNat 96

/-- Go `strings.HasPrefix`. -/
def HasPrefix (s pre : String) : Bool := pre.data.isPrefixOf s.data

/-- Scanning loop of `strings.ReplaceAll` for a non-empty `old`: the counter is
the number of characters of the current match that remain to be skipped. -/
def replaceScan (old new : List Char) : Nat → List Char → List Char
  | _, [] => []
  | k + 1, _ :: cs => replaceScan old new k cs
  | 0, c :: cs =>
    if old.isPrefixOf (c :: cs) then new ++ replaceScan old new (old.length - 1) cs
    else c :: replaceScan old new 0 cs

/-- Go `strings.ReplaceAll`: every non-overlapping occurrence of `old`, found
from left to right, is replaced by `new`; an empty `old` matches before every
character and at the end. -/
def ReplaceAll (s old new : String) : String :=
  if old.data = [] then ⟨new.data ++ s.data.flatMap (fun c => c :: new.data)⟩
  else ⟨replaceScan old.data new.data 0 s.data⟩

/-- Dynamically typed values (`interface{}`) found in query rows and passed as
arguments: the scalar kinds `isNanoTimestamp` switches on, strings, and
`other` for every remaining kind (floats, times, small integers, nil). -/
inductive Value where
  | str (s : String)
  | uint64 (n : Nat)
  | int64 (n : Int)
  | uint32 (n : Nat)
  | int32 (n : Int)
  | uint (n : Nat)
  | int (n : Int)
  | other
  deriving DecidableEq, Repr

/-- Decimal rendering of an integer, as the verb `%d` prints it. -/
def formatInt (n : Int) : String :=
  if n < 0 then "-" ++ Nat.repr n.natAbs else Nat.repr n.natAbs

/-- Rendering of one operand under one verb: `%s` prints a string operand and
`%d` an integer operand. Any other combination is outside the fragment of
`fmt` this program uses and is rendered as the bare verb. -/
def formatVerb (verb : Char) (a : Value) : List Char :=
  if verb = 's' then
    match a with
    | Value.str s => s.data
    | _ => [ '%', verb]
  else if verb = 'd' then
    match a with
    | Value.uint64 n => (Nat.repr n).data
    | Value.int64 n => (formatInt n).data
    | Value.uint32 n => (Nat.repr n).data
    | Value.int32 n => (formatInt n).data
    | Value.uint n => (Nat.repr n).data
    | Value.int n => (formatInt n).data
    | _ => [ '%', verb]
  else [ '%', verb]

/-- Interpreter of a `fmt` format: literal characters are copied, and each
`%` followed by a verb character consumes the next operand. -/
def sprintfAux : List Char → List Value → List Char
  | [], _ => []
  | c :: fmt, args =>
    if c = '%' then
      match fmt, args with
      | verb :: fmt', a :: args' => formatVerb verb a ++ sprintfAux fmt' args'
      | verb :: fmt', [] => '%' :: verb :: sprintfAux fmt' []
      | [], _ => [ '%']
    else c :: sprintfAux fmt args

/-- Go `fmt.Sprintf`, for the verbs `%s` and `%d`. -/
def Sprintf (format : String) (args : List Value) : String :=
  ⟨sprintfAux format.data args⟩

/-! ## pkg/utils/escape.go -/

/-- Go `utils.EscapeIdentifier`: double the inner backticks, then wrap the
result in backticks. -/
def EscapeIdentifier (identifier : String) : String :=
  let escaped := ReplaceAll identifier "`" "``"
  "`" ++ escaped ++ "`"

/-! ## Errors, rows and the database client -/

/-- Go `error` values: `errors.New` (or `fmt.Errorf` without `%w`) builds a
leaf, and `fmt.Errorf` with a final `%w` wraps an inner error behind the
message text that precedes it. The nil error is `none`. -/
inductive GoError where
  | new (msg : String)
  | wrap (msg : String) (inner : GoError)
  deriving DecidableEq, Repr

/-- A query row, Go `map[string]interface{}`, as an association list. -/
abbrev Row := List (String × Value)

/-- Go `client.Client`: the two methods the program calls. Each call reads the
connection state and returns the next one, so that a collaborator may answer
the same request differently at different times. -/
structure Client (σ : Type) where
  Query : String → List Value → σ → Except GoError (List Row) × σ
  Exec : String → List Value → σ → Option GoError × σ

/-- Go `strings.Join`. -/
def Join : List String → String → String
  | [], _ => ""
  | [a], _ => a
  | a :: b :: rest, sep => a ++ sep ++ Join (b :: rest) sep

/-! ## pkg/detector/detector.go -/

/-- Go `detector.TimeColumn`. -/
structure TimeColumn where
  Name : String
  Type_ : String
  IsUInt64 : Bool
  deriving DecidableEq, Repr

/-- Go `detector.ErrNoTimeColumn`. -/
def ErrNoTimeColumn : GoError := GoError.new "no suitable time column found"

/-- Go `isDateTimeType`. -/
def isDateTimeType (colType : String) : Bool :=
  HasPrefix colType "DateTime" || HasPrefix colType "Date"

/-- The constant `nanoThreshold = 1e17` of `isNanoTimestamp`. -/
def nanoThreshold : Nat := 100000000000000000

/-- Go conversion `uint64(v)` of a signed integer: reinterpretation modulo 2^64. -/
def toUint64 (v : Int) : Nat := (v % 18446744073709551616).toNat

/-- The type switch of `isNanoTimestamp`: the `uint64` a sampled value converts
to, or `none` for the `default` branch. -/
def sampleValue : Value → Option Nat
  | Value.uint64 v => some (v % 18446744073709551616)
  | Value.int64 v => some (toUint64 v)
  | Value.uint32 v => some (v % 18446744073709551616)
  | Value.int32 v => some (toUint64 v)
  | Value.uint v => some (v % 18446744073709551616)
  | Value.int v => some (toUint64 v)
  | _ => none

/-- The loop over the sampled rows in `isNanoTimestamp`. -/
def sampleLoop (column : String) : List Row → Bool
  | [] => false
  | row :: rows =>
    match row.lookup column with
    | none => sampleLoop column rows
    | some val =>
      match sampleValue val with
      | none => sampleLoop column rows
      | some numVal => if numVal > nanoThreshold then true else sampleLoop column rows

/-- Go `(*Detector).isNanoTimestamp`. -/
def isNanoTimestamp {σ : Type} (cl : Client σ) (database table column : String) (s : σ) :
    Except GoError Bool × σ :=
  let query := Sprintf "SELECT %s FROM %s.%s WHERE %s > 0 LIMIT 10"
    [Value.str (EscapeIdentifier column), Value.str (EscapeIdentifier database),
     Value.str (EscapeIdentifier table), Value.str (EscapeIdentifier column)]
  match cl.Query query [] s with
  | (Except.error err, s') =>
    (Except.error (GoError.wrap (Sprintf "failed to sample column %s: " [Value.str column]) err), s')
  | (Except.ok rows, s') =>
    if rows.length = 0 then
      (Except.error (GoError.new (Sprintf "no data to sample in column %s" [Value.str column])), s')
    else (Except.ok (sampleLoop column rows), s')

/-- The catalog query text of `DetectTimeColumn`. -/
def detectQuery : String :=
  "\n\t\tSELECT\n\t\t\tname,\n\t\t\ttype\n\t\tFROM system.columns\n\t\tWHERE database = ?\n\t\t  AND table = ?\n\t\tORDER BY position\n\t"

/-- The loop of `DetectTimeColumn` that fills the map `columns`; the map is an
association list whose first binding of a name is the current one. -/
def buildColumns : List Row → List (String × String) → List (String × String)
  | [], columns => columns
  | row :: rows, columns =>
    match row.lookup "name" with
    | some (Value.str name) =>
      match row.lookup "type" with
      | some (Value.str colType) => buildColumns rows ((name, colType) :: columns)
      | _ => buildColumns rows columns
    | _ => buildColumns rows columns

/-- The candidate list of `DetectTimeColumn`. -/
def candidatesOf (preferredColumns : List String) : List String :=
  if preferredColumns.length > 0 then preferredColumns
  else ["timestamp", "event_time", "created_at"]

/-- The loop of `DetectTimeColumn` over the candidates, in priority order. -/
def detectLoop {σ : Type} (cl : Client σ) (database table : String)
    (columns : List (String × String)) : List String → σ → Except GoError TimeColumn × σ
  | [], s => (Except.error ErrNoTimeColumn, s)
  | name :: rest, s =>
    match columns.lookup name with
    | none => detectLoop cl database table columns rest s
    | some colType =>
      if isDateTimeType colType then
        (Except.ok { Name := name, Type_ := colType, IsUInt64 := false }, s)
      else if HasPrefix colType "UInt64" then
        match isNanoTimestamp cl database table name s with
        | (Except.error _, s') => detectLoop cl database table columns rest s'
        | (Except.ok isNano, s') =>
          if isNano then (Except.ok { Name := name, Type_ := colType, IsUInt64 := true }, s')
          else detectLoop cl database table columns rest s'
      else detectLoop cl database table columns rest s

/-- Go `(*Detector).DetectTimeColumn`. -/
def DetectTimeColumn {σ : Type} (cl : Client σ) (database table : String)
    (preferredColumns : List String) (s : σ) : Except GoError TimeColumn × σ :=
  match cl.Query detectQuery [Value.str database, Value.str table] s with
  | (Except.error err, s') => (Except.error (GoError.wrap "failed to query columns: " err), s')
  | (Except.ok rows, s') =>
    let columns := buildColumns rows []
    let candidates := candidatesOf preferredColumns
    detectLoop cl database table columns candidates s'

/-! ## pkg/scanner/scanner.go -/

/-- Go `scanner.TableInfo`. -/
structure TableInfo where
  Database : String
  Table : String
  Engine : String
  TimeColumns : List String
  deriving DecidableEq, Repr

/-! ## pkg/executor/executor.go -/

/-- Go `executor.Executor`, without the client, which is passed separately. -/
structure Executor where
  dryRun : Bool
  verbose : Bool
  deriving DecidableEq, Repr

/-- Go `(*Executor).generateTTLSQL`. -/
def generateTTLSQL (_e : Executor) (database table : String) (col : TimeColumn)
    (days : Int) : String :=
  let dbEscaped := EscapeIdentifier database
  let tableEscaped := EscapeIdentifier table
  let colEscaped := EscapeIdentifier col.Name
  if col.IsUInt64 then
    Sprintf "ALTER TABLE %s.%s MODIFY TTL toDateTime(%s / 1000000000) + INTERVAL %d DAY"
      [Value.str dbEscaped, Value.str tableEscaped, Value.str colEscaped, Value.int days]
  else if HasPrefix col.Type_ "DateTime64" then
    Sprintf "ALTER TABLE %s.%s MODIFY TTL toDateTime(%s) + INTERVAL %d DAY"
      [Value.str dbEscaped, Value.str tableEscaped, Value.str colEscaped, Value.int days]
  else
    Sprintf "ALTER TABLE %s.%s MODIFY TTL %s + INTERVAL %d DAY"
      [Value.str dbEscaped, Value.str tableEscaped, Value.str colEscaped, Value.int days]

/-- Go `executor.ExecutionResult`. -/
structure ExecutionResult where
  Database : String
  Table : String
  TimeColumn : String
  TimeType : String
  SQL : String
  Success : Bool
  Error : Option GoError
  Skipped : Bool
  SkipReason : String
  deriving DecidableEq, Repr

/-- Go `(*Executor).Execute`. -/
def Execute {σ : Type} (cl : Client σ) (e : Executor) (table : TableInfo)
    (timeCol : TimeColumn) (retentionDays : Int) (s : σ) : ExecutionResult × σ :=
  let result : ExecutionResult :=
    { Database := table.Database, Table := table.Table, TimeColumn := timeCol.Name,
      TimeType := timeCol.Type_, SQL := "", Success := false, Error := none,
      Skipped := false, SkipReason := "" }
  let sql := generateTTLSQL e table.Database table.Table timeCol retentionDays
  let result := { result with SQL := sql }
  if e.dryRun then ({ result with Success := true }, s)
  else
    match cl.Exec sql [] s with
    | (some err, s') =>
      ({ result with Error := some (GoError.wrap "failed to execute TTL: " err), Success := false }, s')
    | (none, s') => ({ result with Success := true }, s')

/-! ## pkg/reporter/reporter.go -/

/-- Go `reporter.Reporter`, without the start time. -/
structure Reporter where
  results : List ExecutionResult
  verbose : Bool
  dryRun : Bool
  deriving DecidableEq, Repr

/-- Go `reporter.Summary`, without the elapsed duration. -/
structure Summary where
  Total : Int
  Success : Int
  Failed : Int
  Skipped : Int
  deriving DecidableEq, Repr

/-- Go `reporter.NewReporter`. -/
def NewReporter (verbose dryRun : Bool) : Reporter :=
  { results := [], verbose := verbose, dryRun := dryRun }

/-- Go `(*Reporter).AddResult`. -/
def AddResult (r : Reporter) (result : ExecutionResult) : Reporter :=
  { r with results := r.results ++ [result] }

/-- The counting loop of `PrintSummary`. -/
def countLoop : List ExecutionResult → Summary → Summary
  | [], summary => summary
  | result :: rest, summary =>
    if result.Skipped then countLoop rest { summary with Skipped := summary.Skipped + 1 }
    else if result.Success then countLoop rest { summary with Success := summary.Success + 1 }
    else countLoop rest { summary with Failed := summary.Failed + 1 }

/-- Go `(*Reporter).PrintSummary`: the summary it returns (printing omitted). -/
def PrintSummary (r : Reporter) : Summary :=
  let summary : Summary :=
    { Total := (r.results.length : Int), Success := 0, Failed := 0, Skipped := 0 }
  countLoop r.results summary

/-! ## pkg/scanner/scanner.go: catalog discovery -/

/-- The query text of `scanTimeColumns`. -/
def scanTimeColumnsQuery : String :=
  "\n\t\tSELECT name, type\n\t\tFROM system.columns\n\t\tWHERE database = ?\n\t\t  AND table = ?\n\t\t  AND (\n\t\t\t  type LIKE 'Date%'\n\t\t\t  OR type LIKE 'DateTime%'\n\t\t\t  OR (\n\t\t\t\t  type LIKE 'UInt64%'\n\t\t\t\t  AND (\n\t\t\t\t\t  name = 'timestamp'\n\t\t\t\t\t  OR name = 'event_time'\n\t\t\t\t\t  OR name = 'created_at'\n\t\t\t\t\t  OR name = 'time'\n\t\t\t\t  )\n\t\t\t  )\n\t\t  )\n\t\tORDER BY position\n\t"

/-- The loop of `scanTimeColumns`: names in row order, each kept once. -/
def collectNames : List Row → List String → List String → List String
  | [], columns, _ => columns
  | row :: rows, columns, seen =>
    match row.lookup "name" with
    | some (Value.str name) =>
      if seen.contains name then collectNames rows columns seen
      else collectNames rows (columns ++ [name]) (name :: seen)
    | _ => collectNames rows columns seen

/-- Go `(*Scanner).scanTimeColumns`. -/
def scanTimeColumns {σ : Type} (cl : Client σ) (database table : String) (s : σ) :
    Except GoError (List String) × σ :=
  match cl.Query scanTimeColumnsQuery [Value.str database, Value.str table] s with
  | (Except.error err, s') => (Except.error (GoError.wrap "query time columns failed: " err), s')
  | (Except.ok rows, s') => (Except.ok (collectNames rows [] []), s')

/-- The query text of `ScanTables`. -/
def scanTablesQuery : String :=
  "\n\t\tSELECT\n\t\t\tdatabase,\n\t\t\tname as table,\n\t\t\tengine\n\t\tFROM system.tables\n\t\tWHERE database = ?\n\t\t  AND database NOT IN ('system', 'INFORMATION_SCHEMA', 'information_schema')\n\t\t  AND engine NOT IN ('View', 'MaterializedView', 'Dictionary', 'Distributed')\n\t\tORDER BY name\n\t"

/-- The loop of `ScanTables` over the rows of `system.tables`. -/
def scanLoop {σ : Type} (cl : Client σ) : List Row → List TableInfo → σ → List TableInfo × σ
  | [], tables, s => (tables, s)
  | row :: rows, tables, s =>
    match row.lookup "database" with
    | some (Value.str db) =>
      match row.lookup "table" with
      | some (Value.str table) =>
        match row.lookup "engine" with
        | some (Value.str engine) =>
          if HasPrefix table ".inner" || HasPrefix table "system" then scanLoop cl rows tables s
          else
            match scanTimeColumns cl db table s with
            | (Except.error _, s') =>
              scanLoop cl rows
                (tables ++ [{ Database := db, Table := table, Engine := engine, TimeColumns := [] }]) s'
            | (Except.ok timeColumns, s') =>
              scanLoop cl rows
                (tables ++ [{ Database := db, Table := table, Engine := engine,
                              TimeColumns := timeColumns }]) s'
        | _ => scanLoop cl rows tables s
      | _ => scanLoop cl rows tables s
    | _ => scanLoop cl rows tables s

/-- Go `(*Scanner).ScanTables`. -/
def ScanTables {σ : Type} (cl : Client σ) (database : String) (s : σ) :
    Except GoError (List TableInfo) × σ :=
  match cl.Query scanTablesQuery [Value.str database] s with
  | (Except.error err, s') => (Except.error (GoError.wrap "failed to scan tables: " err), s')
  | (Except.ok rows, s') =>
    let r := scanLoop cl rows [] s'
    (Except.ok r.1, r.2)

/-! ## pkg/config/config.go -/

/-- Go `config.Config`. -/
structure Config where
  Host : String
  Port : Int
  User : String
  Password : String
  Database : String
  RetentionDays : Int
  DryRun : Bool
  Verbose : Bool
  deriving DecidableEq, Repr

/-- Go `(*Config).Validate`. -/
def Config.Validate (c : Config) : Option GoError :=
  if c.Host = "" then some (GoError.new "host cannot be empty")
  else if c.Port ≤ 0 ∨ c.Port > 65535 then
    some (GoError.new (Sprintf "invalid port: %d, must be between 1 and 65535" [Value.int c.Port]))
  else if c.User = "" then some (GoError.new "user cannot be empty")
  else if c.Database = "" then some (GoError.new "database cannot be empty")
  else if c.RetentionDays ≤ 0 then
    some (GoError.new
      (Sprintf "invalid retention days: %d, must be greater than 0" [Value.int c.RetentionDays]))
  else none

/-! ## cmd/root.go -/

/-- What surrounds one execution of `run`: the outcome of `client.NewClient`
(an initial connection state or an error), the client methods, and the word
the operator types at the confirmation prompt. -/
structure Env (σ : Type) where
  NewClient : Config → Except GoError σ
  client : Client σ
  confirm : String

/-- State of the table loop of `run`: the reporter, the connection state, and
the pauses taken so far (each entry is one `time.Sleep`, in milliseconds). -/
structure LoopState (σ : Type) where
  rep : Reporter
  world : σ
  sleeps : List Nat

/-- The body of the loop `for i, table := range tables` of `run`, for the
table of index `i`; `total` is `len(tables)` (progress printing omitted). -/
def loopBody {σ : Type} (cl : Client σ) (cfg : Config) (exec : Executor) (total : Int)
    (i : Int) (table : TableInfo) (st : LoopState σ) : LoopState σ :=
  match DetectTimeColumn cl table.Database table.Table table.TimeColumns st.world with
  | (Except.error _, s') =>
    let skipReason :=
      if table.TimeColumns.length > 0 then
        Sprintf "时间列 [%s] 验证失败" [Value.str (Join table.TimeColumns ", ")]
      else "未找到合适的时间字段"
    let result : ExecutionResult :=
      { Database := table.Database, Table := table.Table, TimeColumn := "", TimeType := "",
        SQL := "", Success := false, Error := none, Skipped := true,
        SkipReason := skipReason }
    { rep := AddResult st.rep result, world := s', sleeps := st.sleeps }
  | (Except.ok timeCol, s') =>
    let r := Execute cl exec table timeCol cfg.RetentionDays s'
    let sleeps :=
      if !cfg.DryRun && decide (i < total - 1) then st.sleeps ++ [100] else st.sleeps
    { rep := AddResult st.rep r.1, world := r.2, sleeps := sleeps }

/-- The loop `for i, table := range tables` of `run`, from index `i` on. -/
def tableLoop {σ : Type} (cl : Client σ) (cfg : Config) (exec : Executor) (total : Int) :
    Int → List TableInfo → LoopState σ → LoopState σ
  | _, [], st => st
  | i, table :: rest, st =>
    tableLoop cl cfg exec total (i + 1) rest (loopBody cl cfg exec total i table st)

/-- The table loop of `run` as it is entered: index 0, a fresh reporter, and
the executor built from the configuration. -/
def processTables {σ : Type} (cl : Client σ) (cfg : Config) (tables : List TableInfo)
    (s : σ) : LoopState σ :=
  tableLoop cl cfg { dryRun := cfg.DryRun, verbose := cfg.Verbose } (tables.length : Int) 0 tables
    { rep := NewReporter cfg.Verbose cfg.DryRun, world := s, sleeps := [] }

/-- Go `run`: the error it returns, `none` for nil (printing omitted). -/
def run {σ : Type} (env : Env σ) (cfg : Config) : Option GoError :=
  match cfg.Validate with
  | some err => some (GoError.wrap "配置验证失败: " err)
  | none =>
    match env.NewClient cfg with
    | Except.error err => some (GoError.wrap "连接失败: " err)
    | Except.ok s0 =>
      match ScanTables env.client cfg.Database s0 with
      | (Except.error err, _) => some (GoError.wrap "扫描表失败: " err)
      | (Except.ok tables, s1) =>
        if tables.length = 0 then none
        else if !cfg.DryRun && env.confirm != cfg.Database then none
        else
          let st := processTables env.client cfg tables s1
          let summary := PrintSummary st.rep
          if summary.Failed > 0 then some (GoError.new "部分表执行失败") else none

/-- Go `main`: the exit status of the process. -/
def main {σ : Type} (env : Env σ) (cfg : Config) : Nat :=
  match run env cfg with
  | some _ => 1
  | none => 0

/-- What one execution of `run` leaves behind: the error it returns, the
connection state at its end (`none` when no connection was opened), the
outcomes recorded by the reporter and the pauses taken. -/
structure RunResult (σ : Type) where
  err : Option GoError
  world : Option σ
  outcomes : List ExecutionResult
  sleeps : List Nat
  deriving DecidableEq, Repr

/-- Go `run`, step by step as in `run` above, together with its effects: the
connection state is threaded from `client.NewClient` through the scan and the
table loop and is returned with the error (printing omitted). -/
def runEffects {σ : Type} (env : Env σ) (cfg : Config) : RunResult σ :=
  match cfg.Validate with
  | some err =>
    { err := some (GoError.wrap "配置验证失败: " err), world := none, outcomes := [], sleeps := [] }
  | none =>
    match env.NewClient cfg with
    | Except.error err =>
      { err := some (GoError.wrap "连接失败: " err), world := none, outcomes := [], sleeps := [] }
    | Except.ok s0 =>
      match ScanTables env.client cfg.Database s0 with
      | (Except.error err, s1) =>
        { err := some (GoError.wrap "扫描表失败: " err), world := some s1, outcomes := [],
          sleeps := [] }
      | (Except.ok tables, s1) =>
        if tables.length = 0 then { err := none, world := some s1, outcomes := [], sleeps := [] }
        else if !cfg.DryRun && env.confirm != cfg.Database then
          { err := none, world := some s1, outcomes := [], sleeps := [] }
        else
          let st := processTables env.client cfg tables s1
          let summary := PrintSummary st.rep
          { err := if summary.Failed > 0 then some (GoError.new "部分表执行失败") else none,
            world := some st.world, outcomes := st.rep.results, sleeps := st.sleeps }

/-! ## Reference definitions taken from the specification -/

/-- Go `strings.Contains`, as a proposition: `sub` occurs in `s`. -/
def Contains (s sub : String) : Prop := sub.data <:+: s.data

instance (s sub : String) : Decidable (Contains s sub) := by
  unfold Contains
  infer_instance

/-- Specification side of the escaper: every backtick of a name is replaced by
two backticks, every other character is kept. -/
def doubleBackticks : List Char → List Char
  | [] => []
  | c :: cs =>
    if c = backtick then backtick :: backtick :: doubleBackticks cs
    else c :: doubleBackticks cs

/-- Reference reader, after the opening delimiter: two consecutive backticks
are one literal backtick, a single backtick closes the identifier. The result
is the name read and the input left after the closing delimiter; `none` when
the identifier is not closed. -/
def readBody : List Char → Option (List Char × List Char)
  | [] => none
  | [c] => if c = backtick then some ([], []) else none
  | c :: d :: rest =>
    if c = backtick then
      if d = backtick then (readBody rest).map (fun p => (backtick :: p.1, p.2))
      else some ([], d :: rest)
    else (readBody (d :: rest)).map (fun p => (c :: p.1, p.2))

/-- Reference reader of a backtick-quoted identifier: consume the opening
backtick, then read the body. -/
def readQuoted : List Char → Option (List Char × List Char)
  | [] => none
  | c :: cs => if c = backtick then readBody cs else none

/-- Specification side of the synthesizer: the TTL expression built on the
escaped column, by encoding. -/
def ttlExpr (col : TimeColumn) : String :=
  if col.IsUInt64 then "toDateTime(" ++ EscapeIdentifier col.Name ++ " / 1000000000)"
  else if HasPrefix col.Type_ "DateTime64" then "toDateTime(" ++ EscapeIdentifier col.Name ++ ")"
  else EscapeIdentifier col.Name

/-- Specification side of the classifier: the decision a candidate earns when
it is examined at connection state `s`. It qualifies when it is present in the
catalog and its declared type is a Calendar type (no probe, `IsUInt64 = false`)
or starts with `UInt64` and the probe issued at `s` returns true without error
(`IsUInt64 = true`). -/
def qualifies {σ : Type} (cl : Client σ) (database table : String)
    (columns : List (String × String)) (name : String) (s : σ) : Option TimeColumn :=
  match columns.lookup name with
  | none => none
  | some colType =>
    if isDateTimeType colType then some { Name := name, Type_ := colType, IsUInt64 := false }
    else if HasPrefix colType "UInt64" then
      match (isNanoTimestamp cl database table name s).1 with
      | Except.ok true => some { Name := name, Type_ := colType, IsUInt64 := true }
      | _ => none
    else none

/-- The connection state once a candidate has been examined at state `s`: only
a present candidate of a non-Calendar type starting with `UInt64` is probed. -/
def afterExam {σ : Type} (cl : Client σ) (database table : String)
    (columns : List (String × String)) (name : String) (s : σ) : σ :=
  match columns.lookup name with
  | none => s
  | some colType =>
    if isDateTimeType colType then s
    else if HasPrefix colType "UInt64" then (isNanoTimestamp cl database table name s).2
    else s

/-- The connection state at which the candidate of rank `k` is examined, when
the candidates ranked before it have been examined from state `s`. -/
def stateAt {σ : Type} (cl : Client σ) (database table : String)
    (columns : List (String × String)) (candidates : List String) (s : σ) (k : Nat) : σ :=
  (candidates.take k).foldl (fun st name => afterExam cl database table columns name st) s

/-! ## Sample databases -/

deriving instance DecidableEq for Except

/-- Catalog of the sample table: a `UInt64` column `timestamp` and a `DateTime`
column `event_time`. -/
def sampleCatalog : List Row :=
  [[("name", Value.str "timestamp"), ("type", Value.str "UInt64")],
   [("name", Value.str "event_time"), ("type", Value.str "DateTime")]]

/-- A database that answers the catalog query with `sampleCatalog` and every
other query with the given sampled rows; every statement executes. -/
def sampleClient (samples : List Row) : Client Unit :=
  { Query := fun q _ s =>
      if q = detectQuery then (Except.ok sampleCatalog, s) else (Except.ok samples, s),
    Exec := fun _ _ s => (none, s) }

/-- Sampled rows of nanosecond resolution. -/
def nanoSamples : List Row :=
  [[("timestamp", Value.uint64 10)], [("timestamp", Value.uint64 20)],
   [("timestamp", Value.uint64 1700000000000000000)]]

/-- Sampled rows of second resolution. -/
def secondSamples : List Row := [[("timestamp", Value.uint64 1700000000)]]

/-- Rows of `system.tables` for the sample run: two tables of database `db`. -/
def sampleTables : List Row :=
  [[("database", Value.str "db"), ("table", Value.str "events"), ("engine", Value.str "MergeTree")],
   [("database", Value.str "db"), ("table", Value.str "logs"), ("engine", Value.str "MergeTree")]]

/-- A database with the two sample tables, each with the sample catalog and
nanosecond samples; the connection state counts the statements received, and
the first statement fails while the later ones execute. -/
def failingClient : Client Nat :=
  { Query := fun q _ s =>
      if q = scanTablesQuery then (Except.ok sampleTables, s)
      else if q = scanTimeColumnsQuery then (Except.ok sampleCatalog, s)
      else if q = detectQuery then (Except.ok sampleCatalog, s)
      else (Except.ok nanoSamples, s),
    Exec := fun _ _ s =>
      if s = 0 then (some (GoError.new "timeout"), s + 1) else (none, s + 1) }

/-- Surroundings of the sample run: the connection succeeds and the operator
confirms with the database name. -/
def sampleEnv : Env Nat :=
  { NewClient := fun _ => Except.ok 0, client := failingClient, confirm := "db" }

/-- Configuration of the sample run: mutating mode, thirty days. -/
def sampleConfig : Config :=
  { Host := "localhost", Port := 9000, User := "default", Password := "", Database := "db",
    RetentionDays := 30, DryRun := false, Verbose := false }

/-- The first table the sample scan discovers. -/
def sampleEvents : TableInfo :=
  { Database := "db", Table := "events", Engine := "MergeTree",
    TimeColumns := ["timestamp", "event_time"] }

/-- The second table the sample scan discovers. -/
def sampleLogs : TableInfo :=
  { Database := "db", Table := "logs", Engine := "MergeTree",
    TimeColumns := ["timestamp", "event_time"] }

/-- The two tables the sample scan discovers. -/
def sampleTableInfos : List TableInfo := [sampleEvents, sampleLogs]

/-- The sample configuration with a retention of zero days. -/
def zeroRetentionConfig : Config := { sampleConfig with RetentionDays := 0 }

/-- A table for which the scan discovered no candidate column. -/
def bareTable : TableInfo :=
  { Database := "db", Table := "raw", Engine := "Log", TimeColumns := [] }

/-- A database in which only the table `events` has columns (the sample
catalog, with nanosecond samples); every statement executes. -/
def partialClient : Client Unit :=
  { Query := fun q args s =>
      if q = detectQuery then
        if args = [Value.str "db", Value.str "events"] then (Except.ok sampleCatalog, s)
        else (Except.ok [], s)
      else (Except.ok nanoSamples, s),
    Exec := fun _ _ s => (none, s) }

/-- A database like `failingClient` whose connection state is the list of the
texts it has received, queries and statements alike; every statement
executes. -/
def recordingClient : Client (List String) :=
  { Query := fun q _ s =>
      if q = scanTablesQuery then (Except.ok sampleTables, s ++ [q])
      else if q = scanTimeColumnsQuery then (Except.ok sampleCatalog, s ++ [q])
      else if q = detectQuery then (Except.ok sampleCatalog, s ++ [q])
      else (Except.ok nanoSamples, s ++ [q]),
    Exec := fun q _ s => (none, s ++ [q]) }

/-- Surroundings of a run against `recordingClient`: the connection succeeds
with nothing received yet and the operator confirms. -/
def recordingEnv : Env (List String) :=
  { NewClient := fun _ => Except.ok [], client := recordingClient, confirm := "db" }

/-! ## Lemmas on the library functions -/

theorem replaceScan_single (b : Char) (new l : List Char) :
    replaceScan [b] new 0 l = l.flatMap (fun c => if c = b then new else [c]) := by
  induction l with
  | nil => rfl
  | cons c cs ih =>
    by_cases h : c = b
    · subst h
      simp [replaceScan, List.isPrefixOf, ih]
    · have h2 : ¬ b = c := fun e => h e.symm
      simp [replaceScan, List.isPrefixOf, ih, h, h2]

theorem flatMap_double (l : List Char) :
    l.flatMap (fun c => if c = backtick then [backtick, backtick] else [c]) = doubleBackticks l := by
  induction l with
  | nil => rfl
  | cons c cs ih =>
    by_cases h : c = backtick
    · simp [doubleBackticks, h, ih]
    · simp [doubleBackticks, h, ih]

theorem EscapeIdentifier_data (name : String) :
    (EscapeIdentifier name).data = backtick :: (doubleBackticks name.data ++ [backtick]) := by
  rw [← flatMap_double]
  simp [EscapeIdentifier, ReplaceAll, replaceScan_single, backtick]

theorem readBody_cons_ne (c : Char) (l : List Char) (h : c ≠ backtick) :
    readBody (c :: l) = (readBody l).map (fun p => (c :: p.1, p.2)) := by
  cases l with
  | nil => simp [readBody, h]
  | cons d rest => simp [readBody, h]

theorem readBody_double (l : List Char) :
    readBody (doubleBackticks l ++ [backtick]) = some (l, []) := by
  induction l with
  | nil => simp [doubleBackticks, readBody]
  | cons c cs ih =>
    by_cases h : c = backtick
    · subst h
      simp [doubleBackticks, readBody, ih]
    · simp only [doubleBackticks, if_neg h, List.cons_append]
      rw [readBody_cons_ne c _ h, ih]
      rfl

theorem readQuoted_escape (x : String) :
    readQuoted (EscapeIdentifier x).data = some (x.data, []) := by
  rw [EscapeIdentifier_data]
  simp [readQuoted, readBody_double]

theorem sprintfAux_lit (lit fmt : List Char) (args : List Value) (h : '%' ∉ lit) :
    sprintfAux (lit ++ fmt) args = lit ++ sprintfAux fmt args := by
  induction lit with
  | nil => rfl
  | cons c cs ih =>
    have hc : c ≠ '%' := fun e => h (by simp [e])
    have hcs : '%' ∉ cs := fun e => h (by simp [e])
    rw [List.cons_append]
    conv => lhs; rw [sprintfAux.eq_def]
    simp [hc, ih hcs]

theorem sprintfAux_s (fmt : List Char) (x : String) (args : List Value) :
    sprintfAux ('%' :: 's' :: fmt) (Value.str x :: args) = x.data ++ sprintfAux fmt args := by
  simp [sprintfAux, formatVerb]

theorem sprintfAux_d (fmt : List Char) (n : Int) (args : List Value) :
    sprintfAux ('%' :: 'd' :: fmt) (Value.int n :: args)
      = (formatInt n).data ++ sprintfAux fmt args := by
  simp [sprintfAux, formatVerb]

/-- The three statement templates of `generateTTLSQL`, each rendered on three
strings and an integer. -/
theorem Sprintf_ttl (pre post : String) (a b c : String) (n : Int)
    (hpre : '%' ∉ pre.data) (hpost : '%' ∉ post.data) :
    sprintfAux ("ALTER TABLE ".data ++ '%' :: 's' :: ('.' :: '%' :: 's' ::
        (" MODIFY TTL ".data ++ pre.data ++ '%' :: 's' :: (post.data ++ " + INTERVAL ".data
          ++ '%' :: 'd' :: " DAY".data))))
      [Value.str a, Value.str b, Value.str c, Value.int n]
    = ("ALTER TABLE " ++ a ++ "." ++ b ++ " MODIFY TTL " ++ (pre ++ c ++ post)
        ++ " + INTERVAL " ++ formatInt n ++ " DAY").data := by
  have h1 : '%' ∉ "ALTER TABLE ".data := by decide
  have h2 : '%' ∉ ['.'] := by decide
  have h3 : '%' ∉ " MODIFY TTL ".data ++ pre.data := by
    intro h
    rcases List.mem_append.1 h with h | h
    · exact absurd h (by decide)
    · exact hpre h
  have h4 : '%' ∉ post.data ++ " + INTERVAL ".data := by
    intro h
    rcases List.mem_append.1 h with h | h
    · exact hpost h
    · exact absurd h (by decide)
  have h5 : '%' ∉ " DAY".data := by decide
  rw [sprintfAux_lit _ _ _ h1, sprintfAux_s]
  rw [show ('.' :: '%' :: 's' :: (" MODIFY TTL ".data ++ pre.data ++ '%' :: 's' ::
        (post.data ++ " + INTERVAL ".data ++ '%' :: 'd' :: " DAY".data)))
      = ['.'] ++ ('%' :: 's' :: (" MODIFY TTL ".data ++ pre.data ++ '%' :: 's' ::
        (post.data ++ " + INTERVAL ".data ++ '%' :: 'd' :: " DAY".data))) from rfl]
  rw [sprintfAux_lit _ _ _ h2, sprintfAux_s, sprintfAux_lit _ _ _ h3, sprintfAux_s,
    sprintfAux_lit _ _ _ h4, sprintfAux_d]
  rw [show " DAY".data = " DAY".data ++ [] from (List.append_nil _).symm,
    sprintfAux_lit _ _ _ h5]
  simp [sprintfAux, String.data_append]

theorem generateTTLSQL_eq (e : Executor) (database table : String) (col : TimeColumn)
    (days : Int) :
    generateTTLSQL e database table col days
      = "ALTER TABLE " ++ EscapeIdentifier database ++ "." ++ EscapeIdentifier table
          ++ " MODIFY TTL " ++ ttlExpr col ++ " + INTERVAL " ++ formatInt days ++ " DAY" := by
  apply String.ext
  unfold generateTTLSQL ttlExpr
  have e0 : "" ++ EscapeIdentifier col.Name ++ "" = EscapeIdentifier col.Name := by
    apply String.ext
    simp [String.data_append]
  cases col.IsUInt64 with
  | true =>
    rw [if_pos rfl, if_pos rfl]
    exact Sprintf_ttl "toDateTime(" " / 1000000000)" (EscapeIdentifier database)
      (EscapeIdentifier table) (EscapeIdentifier col.Name) days (by decide) (by decide)
  | false =>
    rw [if_neg Bool.false_ne_true, if_neg Bool.false_ne_true]
    cases HasPrefix col.Type_ "DateTime64" with
    | true =>
      rw [if_pos rfl, if_pos rfl]
      exact Sprintf_ttl "toDateTime(" ")" (EscapeIdentifier database)
        (EscapeIdentifier table) (EscapeIdentifier col.Name) days (by decide) (by decide)
    | false =>
      rw [if_neg Bool.false_ne_true, if_neg Bool.false_ne_true]
      have h := Sprintf_ttl "" "" (EscapeIdentifier database)
        (EscapeIdentifier table) (EscapeIdentifier col.Name) days (by decide) (by decide)
      rw [e0] at h
      exact h

/-! ## Occurrences of a text in a statement -/

theorem prefix_of_prefix_sep {p a b : List Char} {x : Char} (hx : x ∉ p)
    (h : p <+: a ++ x :: b) : p <+: a := by
  have h2 : a ++ [x] <+: a ++ x :: b := ⟨b, by simp⟩
  rcases List.prefix_or_prefix_of_prefix h h2 with h3 | h3
  · rcases List.prefix_concat_iff.1 h3 with h4 | h4
    · exact absurd (by rw [h4]; simp) hx
    · exact h4
  · exact absurd (h3.subset (by simp)) hx

theorem infix_sep_iff {p : List Char} (a b : List Char) {x : Char} (hx : x ∉ p) :
    p <:+: a ++ x :: b ↔ p <:+: a ∨ p <:+: b := by
  constructor
  · intro h
    induction a with
    | nil =>
      rcases List.infix_cons_iff.1 h with h1 | h1
      · exact Or.inl (prefix_of_prefix_sep (a := []) hx h1).isInfix
      · exact Or.inr h1
    | cons c a ih =>
      rcases List.infix_cons_iff.1 h with h1 | h1
      · exact Or.inl (prefix_of_prefix_sep (a := c :: a) hx h1).isInfix
      · rcases ih h1 with h2 | h2
        · exact Or.inl (h2.trans (List.suffix_cons c a).isInfix)
        · exact Or.inr h2
  · rintro (h | h)
    · exact h.trans (List.prefix_append a (x :: b)).isInfix
    · exact h.trans ((List.suffix_cons x b).trans (List.suffix_append a (x :: b))).isInfix

theorem prefix_double_iff (x : List Char) : ∀ p : List Char, backtick ∉ p →
    (p <+: doubleBackticks x ↔ p <+: x) := by
  induction x with
  | nil => intro p _; simp [doubleBackticks]
  | cons c x ih =>
    intro p hp
    cases p with
    | nil => simp
    | cons q p =>
      have hq : q ≠ backtick := fun e => hp (by simp [e])
      have hp2 : backtick ∉ p := fun e => hp (by simp [e])
      by_cases hc : c = backtick
      · subst hc
        simp [doubleBackticks, hq]
      · simp [doubleBackticks, hc, ih p hp2]

theorem infix_double_iff (p : List Char) (hp : backtick ∉ p) (hne : p ≠ []) (x : List Char) :
    p <:+: doubleBackticks x ↔ p <:+: x := by
  induction x with
  | nil => simp [doubleBackticks]
  | cons c x ih =>
    by_cases hc : c = backtick
    · subst hc
      have e1 : doubleBackticks (backtick :: x) = [] ++ backtick :: ([] ++ backtick :: doubleBackticks x) := by
        simp [doubleBackticks]
      have e2 : backtick :: x = [] ++ backtick :: x := rfl
      rw [e1, e2, infix_sep_iff _ _ hp, infix_sep_iff _ _ hp, infix_sep_iff _ _ hp, ih]
      simp [hne]
    · have e1 : doubleBackticks (c :: x) = c :: doubleBackticks x := by simp [doubleBackticks, hc]
      rw [List.infix_cons_iff, ← ih, ← prefix_double_iff (c :: x) p hp, e1, List.infix_cons_iff]

theorem toDigitsCore_mem (fuel : Nat) : ∀ (n : Nat) (acc : List Char) (c : Char),
    c ∈ Nat.toDigitsCore 10 fuel n acc → c ∈ acc ∨ c ∈ "0123456789".data := by
  induction fuel with
  | zero => intro n acc c h; exact Or.inl (by simpa [Nat.toDigitsCore] using h)
  | succ f ih =>
    intro n acc c h
    have hd : Nat.digitChar (n % 10) ∈ "0123456789".data := by
      have : n % 10 < 10 := Nat.mod_lt _ (by decide)
      interval_cases (n % 10) <;> decide
    simp only [Nat.toDigitsCore] at h
    split at h
    · rcases List.mem_cons.1 h with h1 | h1
      · exact Or.inr (h1 ▸ hd)
      · exact Or.inl h1
    · rcases ih _ _ c h with h1 | h1
      · rcases List.mem_cons.1 h1 with h2 | h2
        · exact Or.inr (h2 ▸ hd)
        · exact Or.inl h2
      · exact Or.inr h1

theorem formatInt_mem (n : Int) (c : Char) (h : c ∈ (formatInt n).data) :
    c ∈ "-0123456789".data := by
  have hr : ∀ m : Nat, c ∈ (Nat.repr m).data → c ∈ "0123456789".data := by
    intro m hm
    rcases toDigitsCore_mem _ _ _ _ (show c ∈ Nat.toDigitsCore 10 (m + 1) m [] from hm) with h1 | h1
    · simp at h1
    · exact h1
  unfold formatInt at h
  split at h
  · rw [String.data_append] at h
    rcases List.mem_append.1 h with h1 | h1
    · have : c = '-' := by simpa using h1
      subst this
      decide
    · have := hr _ h1
      simp at this ⊢
      tauto
  · have := hr _ h
    simp at this ⊢
    tauto

/-- Shape of every statement: fixed text, three quoted identifiers, and a tail
made of fixed text and the decimal day count. -/
theorem infix_statement_iff (p : List Char) (hp : backtick ∉ p) (hne : p ≠ [])
    (l0 l1 l2 l3 db tbl col : List Char) :
    p <:+: l0 ++ backtick :: (doubleBackticks db ++ backtick :: (l1 ++ backtick ::
        (doubleBackticks tbl ++ backtick :: (l2 ++ backtick ::
          (doubleBackticks col ++ backtick :: l3)))))
      ↔ p <:+: l0 ∨ p <:+: db ∨ p <:+: l1 ∨ p <:+: tbl ∨ p <:+: l2 ∨ p <:+: col ∨ p <:+: l3 := by
  rw [infix_sep_iff _ _ hp, infix_sep_iff _ _ hp, infix_sep_iff _ _ hp,
    infix_sep_iff _ _ hp, infix_sep_iff _ _ hp, infix_sep_iff _ _ hp,
    infix_double_iff p hp hne, infix_double_iff p hp hne, infix_double_iff p hp hne]

theorem statement_data (e : Executor) (database table : String) (col : TimeColumn)
    (days : Int) (h1 : col.IsUInt64 = false) (h2 : HasPrefix col.Type_ "DateTime64" = false) :
    (generateTTLSQL e database table col days).data
      = "ALTER TABLE ".data ++ backtick :: (doubleBackticks database.data ++ backtick ::
          (".".data ++ backtick :: (doubleBackticks table.data ++ backtick ::
            (" MODIFY TTL ".data ++ backtick :: (doubleBackticks col.Name.data ++ backtick ::
              (" + INTERVAL ".data ++ (formatInt days).data ++ " DAY".data)))))) := by
  rw [generateTTLSQL_eq]
  unfold ttlExpr
  rw [h1, h2, if_neg Bool.false_ne_true, if_neg Bool.false_ne_true]
  simp only [String.data_append, EscapeIdentifier_data, List.append_assoc, List.cons_append,
    List.nil_append]

/-- In the statement of a plain Calendar decision, a text without backtick that
holds a character foreign to the fixed parts occurs only inside the names. -/
theorem plain_contains_iff (e : Executor) (database table : String) (col : TimeColumn)
    (days : Int) (h1 : col.IsUInt64 = false) (h2 : HasPrefix col.Type_ "DateTime64" = false)
    (p : String) (q : Char) (hq : q ∈ p.data) (hb : backtick ∉ p.data)
    (hfix : q ∉ "ALTER TABLE . MODIFY TTL + INTERVAL DAY-0123456789".data) :
    Contains (generateTTLSQL e database table col days) p
      ↔ Contains database p ∨ Contains table p ∨ Contains col.Name p := by
  have hne : p.data ≠ [] := fun h => by simp [h] at hq
  have no : ∀ l : List Char, (∀ c ∈ l, c ∈ "ALTER TABLE . MODIFY TTL + INTERVAL DAY-0123456789".data)
      → ¬ p.data <:+: l := fun l hl hin => hfix (hl q (hin.subset hq))
  unfold Contains
  rw [statement_data e database table col days h1 h2, infix_statement_iff _ hb hne]
  have n0 := no "ALTER TABLE ".data (by decide)
  have n1 := no ".".data (by decide)
  have n2 := no " MODIFY TTL ".data (by decide)
  have s1 : ∀ c ∈ " + INTERVAL ".data,
      c ∈ "ALTER TABLE . MODIFY TTL + INTERVAL DAY-0123456789".data := by decide
  have s2 : ∀ c ∈ "-0123456789".data,
      c ∈ "ALTER TABLE . MODIFY TTL + INTERVAL DAY-0123456789".data := by decide
  have s3 : ∀ c ∈ " DAY".data,
      c ∈ "ALTER TABLE . MODIFY TTL + INTERVAL DAY-0123456789".data := by decide
  have n3 := no (" + INTERVAL ".data ++ (formatInt days).data ++ " DAY".data) (by
    intro c hc
    rcases List.mem_append.1 hc with hc | hc
    · rcases List.mem_append.1 hc with hc | hc
      · exact s1 c hc
      · exact s2 c (formatInt_mem days c hc)
    · exact s3 c hc)
  tauto

theorem epoch_contains_division (e : Executor) (database table : String) (col : TimeColumn)
    (days : Int) (h1 : col.IsUInt64 = true) :
    Contains (generateTTLSQL e database table col days) "/ 1000000000" := by
  unfold Contains
  rw [generateTTLSQL_eq]
  unfold ttlExpr
  rw [h1, if_pos rfl]
  refine ⟨("ALTER TABLE " ++ EscapeIdentifier database ++ "." ++ EscapeIdentifier table
      ++ " MODIFY TTL toDateTime(" ++ EscapeIdentifier col.Name ++ " ").data,
    (") + INTERVAL " ++ formatInt days ++ " DAY").data, ?_⟩
  simp [String.data_append]

theorem subsecond_contains_coercion (e : Executor) (database table : String)
    (col : TimeColumn) (days : Int) (h1 : col.IsUInt64 = false)
    (h2 : HasPrefix col.Type_ "DateTime64" = true) :
    Contains (generateTTLSQL e database table col days) "toDateTime(" := by
  unfold Contains
  rw [generateTTLSQL_eq]
  unfold ttlExpr
  rw [h1, h2, if_neg Bool.false_ne_true, if_pos rfl]
  refine ⟨("ALTER TABLE " ++ EscapeIdentifier database ++ "." ++ EscapeIdentifier table
      ++ " MODIFY TTL ").data,
    (EscapeIdentifier col.Name ++ ") + INTERVAL " ++ formatInt days ++ " DAY").data, ?_⟩
  simp [String.data_append]

/-! ## Identifier escaping and statement synthesis -/

/-- C1: for every database name, table name, time-column decision and day
count, `generateTTLSQL` returns exactly `ALTER TABLE <db>.<table> MODIFY TTL
<expr> + INTERVAL <N> DAY` on the escaped identifiers, where `<expr>` is
`toDateTime(<col> / 1000000000)` for an epoch-integer decision, else
`toDateTime(<col>)` when the declared type starts with `DateTime64`, else the
escaped column itself; the two sample statements of the specification are
instances. -/
theorem C1_generateTTLSQL_exact_text (e : Executor) (database table : String)
    (col : TimeColumn) (days : Int) :
    generateTTLSQL e database table col days
        = "ALTER TABLE " ++ EscapeIdentifier database ++ "." ++ EscapeIdentifier table
          ++ " MODIFY TTL "
          ++ (if col.IsUInt64 then
                "toDateTime(" ++ EscapeIdentifier col.Name ++ " / 1000000000)"
              else if HasPrefix col.Type_ "DateTime64" then
                "toDateTime(" ++ EscapeIdentifier col.Name ++ ")"
              else EscapeIdentifier col.Name)
          ++ " + INTERVAL " ++ formatInt days ++ " DAY"
    ∧ generateTTLSQL e "db" "t" { Name := "event_time", Type_ := "DateTime64(3)", IsUInt64 := false } 30
        = "ALTER TABLE `db`.`t` MODIFY TTL toDateTime(`event_time`) + INTERVAL 30 DAY"
    ∧ generateTTLSQL e "db" "t" { Name := "timestamp", Type_ := "UInt64", IsUInt64 := true } 30
        = "ALTER TABLE `db`.`t` MODIFY TTL toDateTime(`timestamp` / 1000000000) + INTERVAL 30 DAY" := by
  refine ⟨?_, ?_, ?_⟩
  · rw [generateTTLSQL_eq]
    rfl
  · rw [generateTTLSQL_eq]
    decide
  · rw [generateTTLSQL_eq]
    decide

/-- C2: for every name, `EscapeIdentifier name` is a backtick, then the name
with every backtick replaced by two backticks, then a backtick; the empty name
gives two backticks, and the two examples of the source comment hold. -/
theorem C2_EscapeIdentifier_wraps_and_doubles (name : String) :
    (EscapeIdentifier name).data = [backtick] ++ doubleBackticks name.data ++ [backtick]
    ∧ EscapeIdentifier "" = "``"
    ∧ EscapeIdentifier "my_table" = "`my_table`"
    ∧ EscapeIdentifier "table`with`backticks" = "`table``with``backticks`" := by
  refine ⟨?_, by decide, by decide, by decide⟩
  rw [EscapeIdentifier_data]
  rfl

/-- C3: the reference reader applied to `EscapeIdentifier x` yields exactly
`x` and leaves nothing unread, so the closing delimiter it consumed is the
last character; hence `EscapeIdentifier` is injective. -/
theorem C3_EscapeIdentifier_parses_back :
    (∀ x : String, readQuoted (EscapeIdentifier x).data = some (x.data, [])
      ∧ (EscapeIdentifier x).data.getLast? = some backtick)
    ∧ Function.Injective EscapeIdentifier := by
  refine ⟨fun x => ⟨readQuoted_escape x, ?_⟩, ?_⟩
  · rw [EscapeIdentifier_data, ← List.cons_append, List.getLast?_append]
    rfl
  intro x y h
  have hx := readQuoted_escape x
  rw [h, readQuoted_escape y] at hx
  apply String.ext
  have := Option.some.inj hx
  exact (congrArg Prod.fst this).symm

/-- C7, as stated, fails: a plain Calendar decision (type `DateTime`) on a
column whose name holds the text `toDateTime(` gives a statement that contains
that text, and one on a table whose name holds `/ 1000000000` gives a statement
that contains the division text. -/
theorem C7_counterexample_plain_calendar_contains_texts :
    isDateTimeType "DateTime" = true ∧ HasPrefix "DateTime" "DateTime64" = false
    ∧ Contains (generateTTLSQL { dryRun := false, verbose := false } "db" "t"
        { Name := "toDateTime(x)", Type_ := "DateTime", IsUInt64 := false } 30) "toDateTime("
    ∧ Contains (generateTTLSQL { dryRun := false, verbose := false } "db" "bytes / 1000000000"
        { Name := "created_at", Type_ := "DateTime", IsUInt64 := false } 30) "/ 1000000000" := by
  decide

/-- C7 (amended): the statement of an epoch-integer decision contains
`/ 1000000000`; the statement of a sub-second Calendar decision contains
`toDateTime(`; the statement of any other decision contains either text exactly
when the database, table or column name itself contains it, so outside the
quoted names it contains neither. -/
theorem C7_statement_texts_by_encoding (e : Executor) (database table : String)
    (col : TimeColumn) (days : Int) :
    if col.IsUInt64 = true then
      Contains (generateTTLSQL e database table col days) "/ 1000000000"
    else if HasPrefix col.Type_ "DateTime64" = true then
      Contains (generateTTLSQL e database table col days) "toDateTime("
    else
      (Contains (generateTTLSQL e database table col days) "/ 1000000000"
        ↔ Contains database "/ 1000000000" ∨ Contains table "/ 1000000000"
          ∨ Contains col.Name "/ 1000000000")
      ∧ (Contains (generateTTLSQL e database table col days) "toDateTime("
        ↔ Contains database "toDateTime(" ∨ Contains table "toDateTime("
          ∨ Contains col.Name "toDateTime(")
      ∧ generateTTLSQL e database table col days
          = "ALTER TABLE " ++ EscapeIdentifier database ++ "." ++ EscapeIdentifier table
            ++ " MODIFY TTL " ++ EscapeIdentifier col.Name
            ++ " + INTERVAL " ++ formatInt days ++ " DAY" := by
  by_cases h1 : col.IsUInt64 = true
  · rw [if_pos h1]
    exact epoch_contains_division e database table col days h1
  · rw [if_neg h1]
    have h1f : col.IsUInt64 = false := by simpa using h1
    by_cases h2 : HasPrefix col.Type_ "DateTime64" = true
    · rw [if_pos h2]
      exact subsecond_contains_coercion e database table col days h1f h2
    · rw [if_neg h2]
      have h2f : HasPrefix col.Type_ "DateTime64" = false := by simpa using h2
      refine ⟨?_, ?_, ?_⟩
      · exact plain_contains_iff e database table col days h1f h2f "/ 1000000000" '/'
          (by decide) (by decide) (by decide)
      · exact plain_contains_iff e database table col days h1f h2f "toDateTime(" '('
          (by decide) (by decide) (by decide)
      · rw [generateTTLSQL_eq]
        unfold ttlExpr
        rw [h1f, h2f, if_neg Bool.false_ne_true, if_neg Bool.false_ne_true]

/-! ## Time-column detection -/

theorem detectLoop_cons {σ : Type} (cl : Client σ) (database table : String)
    (columns : List (String × String)) (name : String) (rest : List String) (s : σ) :
    detectLoop cl database table columns (name :: rest) s
      = match qualifies cl database table columns name s with
        | some d => (Except.ok d, afterExam cl database table columns name s)
        | none => detectLoop cl database table columns rest
            (afterExam cl database table columns name s) := by
  unfold qualifies afterExam
  rw [detectLoop]
  cases hl : columns.lookup name with
  | none => rfl
  | some colType =>
    simp only []
    by_cases h1 : isDateTimeType colType = true
    · simp only [h1, if_true]
    · simp only [h1, Bool.false_eq_true, if_false]
      by_cases h2 : HasPrefix colType "UInt64" = true
      · simp only [h2, if_true]
        rcases hp : isNanoTimestamp cl database table name s with ⟨r, s'⟩
        cases r with
        | error e => rfl
        | ok b => cases b <;> rfl
      · simp only [h2, Bool.false_eq_true, if_false]

theorem stateAt_zero {σ : Type} (cl : Client σ) (database table : String)
    (columns : List (String × String)) (cands : List String) (s : σ) :
    stateAt cl database table columns cands s 0 = s := rfl

theorem stateAt_succ {σ : Type} (cl : Client σ) (database table : String)
    (columns : List (String × String)) (name : String) (rest : List String) (s : σ) (k : Nat) :
    stateAt cl database table columns (name :: rest) s (k + 1)
      = stateAt cl database table columns rest (afterExam cl database table columns name s) k :=
  rfl

/-- The loop returns a decision exactly when it is the decision of the first
candidate that qualifies, each candidate being examined at its own state. -/
theorem detectLoop_ok_iff {σ : Type} (cl : Client σ) (database table : String)
    (columns : List (String × String)) (cands : List String) : ∀ (s : σ) (d : TimeColumn),
    (detectLoop cl database table columns cands s).1 = Except.ok d
      ↔ ∃ k name, cands[k]? = some name
          ∧ qualifies cl database table columns name
              (stateAt cl database table columns cands s k) = some d
          ∧ ∀ j nm, j < k → cands[j]? = some nm →
              qualifies cl database table columns nm
                (stateAt cl database table columns cands s j) = none := by
  induction cands with
  | nil =>
    intro s d
    simp [detectLoop]
  | cons name rest ih =>
    intro s d
    rw [detectLoop_cons]
    cases hq : qualifies cl database table columns name s with
    | some d0 =>
      simp only []
      constructor
      · intro h
        have hd : d0 = d := by simpa using h
        subst hd
        exact ⟨0, name, by simp, hq, fun j nm hj => absurd hj (Nat.not_lt_zero j)⟩
      · rintro ⟨k, nm, hk, hqk, hall⟩
        cases k with
        | zero =>
          have hn : name = nm := by simpa using hk
          subst hn
          rw [stateAt_zero, hq] at hqk
          simpa using hqk
        | succ k =>
          have := hall 0 name (Nat.succ_pos k) (by simp)
          rw [stateAt_zero, hq] at this
          exact absurd this (by simp)
    | none =>
      simp only []
      rw [ih]
      constructor
      · rintro ⟨k, nm, hk, hqk, hall⟩
        refine ⟨k + 1, nm, by simpa using hk, by rw [stateAt_succ]; exact hqk, ?_⟩
        intro j nm2 hj hnm2
        cases j with
        | zero =>
          have hn : name = nm2 := by simpa using hnm2
          subst hn
          rw [stateAt_zero]
          exact hq
        | succ j =>
          rw [stateAt_succ]
          exact hall j nm2 (Nat.lt_of_succ_lt_succ hj) (by simpa using hnm2)
      · rintro ⟨k, nm, hk, hqk, hall⟩
        cases k with
        | zero =>
          have hn : name = nm := by simpa using hk
          subst hn
          rw [stateAt_zero, hq] at hqk
          exact absurd hqk (by simp)
        | succ k =>
          refine ⟨k, nm, by simpa using hk, by rw [stateAt_succ] at hqk; exact hqk, ?_⟩
          intro j nm2 hj hnm2
          have := hall (j + 1) nm2 (Nat.succ_lt_succ hj) (by simpa using hnm2)
          rw [stateAt_succ] at this
          exact this

/-- The loop fails only with `ErrNoTimeColumn`, exactly when no candidate
qualifies. -/
theorem detectLoop_error_iff {σ : Type} (cl : Client σ) (database table : String)
    (columns : List (String × String)) (cands : List String) : ∀ (s : σ) (e : GoError),
    (detectLoop cl database table columns cands s).1 = Except.error e
      ↔ e = ErrNoTimeColumn ∧ ∀ j nm, cands[j]? = some nm →
          qualifies cl database table columns nm
            (stateAt cl database table columns cands s j) = none := by
  induction cands with
  | nil =>
    intro s e
    simp [detectLoop, eq_comm]
  | cons name rest ih =>
    intro s e
    rw [detectLoop_cons]
    cases hq : qualifies cl database table columns name s with
    | some d0 =>
      simp only []
      constructor
      · intro h
        exact absurd h (by simp)
      · rintro ⟨_, hall⟩
        have := hall 0 name (by simp)
        rw [stateAt_zero, hq] at this
        exact absurd this (by simp)
    | none =>
      simp only []
      rw [ih]
      constructor
      · rintro ⟨he, hall⟩
        refine ⟨he, ?_⟩
        intro j nm hnm
        cases j with
        | zero =>
          have hn : name = nm := by simpa using hnm
          subst hn
          rw [stateAt_zero]
          exact hq
        | succ j =>
          rw [stateAt_succ]
          exact hall j nm (by simpa using hnm)
      · rintro ⟨he, hall⟩
        refine ⟨he, ?_⟩
        intro j nm hnm
        have := hall (j + 1) nm (by simpa using hnm)
        rw [stateAt_succ] at this
        exact this

theorem DetectTimeColumn_of_rows {σ : Type} (cl : Client σ) (database table : String)
    (preferredColumns : List String) (s s1 : σ) (rows : List Row)
    (hq : cl.Query detectQuery [Value.str database, Value.str table] s = (Except.ok rows, s1)) :
    DetectTimeColumn cl database table preferredColumns s
      = detectLoop cl database table (buildColumns rows []) (candidatesOf preferredColumns) s1 := by
  unfold DetectTimeColumn
  rw [hq]

/-- What a qualifying candidate's decision records. -/
theorem qualifies_some {σ : Type} (cl : Client σ) (database table : String)
    (columns : List (String × String)) (name : String) (s : σ) (d : TimeColumn)
    (h : qualifies cl database table columns name s = some d) :
    d.Name = name ∧ columns.lookup name = some d.Type_
    ∧ ((d.IsUInt64 = false ∧ isDateTimeType d.Type_ = true)
      ∨ (d.IsUInt64 = true ∧ isDateTimeType d.Type_ = false ∧ HasPrefix d.Type_ "UInt64" = true
          ∧ (isNanoTimestamp cl database table name s).1 = Except.ok true)) := by
  unfold qualifies at h
  cases hl : columns.lookup name with
  | none => rw [hl] at h; simp at h
  | some colType =>
    rw [hl] at h
    simp only [] at h
    by_cases h1 : isDateTimeType colType = true
    · rw [if_pos h1] at h
      have hd := Option.some.inj h
      subst hd
      exact ⟨rfl, rfl, Or.inl ⟨rfl, h1⟩⟩
    · rw [if_neg h1] at h
      by_cases h2 : HasPrefix colType "UInt64" = true
      · rw [if_pos h2] at h
        rcases hp : (isNanoTimestamp cl database table name s).1 with e | b
        · rw [hp] at h
          simp at h
        · rw [hp] at h
          cases b with
          | false => simp at h
          | true =>
            simp only [] at h
            have hd := Option.some.inj h
            subst hd
            exact ⟨rfl, rfl, Or.inr ⟨rfl, by simpa using h1, h2, rfl⟩⟩
      · rw [if_neg h2] at h
        simp at h

/-- A present Calendar candidate qualifies at every connection state. -/
theorem qualifies_calendar {σ : Type} (cl : Client σ) (database table : String)
    (columns : List (String × String)) (name t : String) (s : σ)
    (hl : columns.lookup name = some t) (ht : isDateTimeType t = true) :
    qualifies cl database table columns name s
      = some { Name := name, Type_ := t, IsUInt64 := false } := by
  unfold qualifies
  rw [hl]
  simp only []
  rw [if_pos ht]

theorem buildColumns_lookup (rows : List Row) : ∀ (acc : List (String × String)) (n t : String),
    (buildColumns rows acc).lookup n = some t →
      acc.lookup n = some t
      ∨ ∃ row ∈ rows, row.lookup "name" = some (Value.str n)
          ∧ row.lookup "type" = some (Value.str t) := by
  induction rows with
  | nil => intro acc n t h; exact Or.inl h
  | cons row rows ih =>
    intro acc n t h
    have keep : (buildColumns rows acc).lookup n = some t →
        acc.lookup n = some t ∨ ∃ r ∈ row :: rows, r.lookup "name" = some (Value.str n)
          ∧ r.lookup "type" = some (Value.str t) := by
      intro h'
      rcases ih acc n t h' with h1 | ⟨r, hr, h2⟩
      · exact Or.inl h1
      · exact Or.inr ⟨r, List.mem_cons_of_mem _ hr, h2⟩
    unfold buildColumns at h
    split at h
    · rename_i name hname
      split at h
      · rename_i colType htype
        rcases ih _ n t h with h1 | ⟨r, hr, h2⟩
        · by_cases hn : n = name
          · subst hn
            have : colType = t := by simpa [List.lookup] using h1
            subst this
            exact Or.inr ⟨row, List.mem_cons_self _ _, hname, htype⟩
          · have hb : (n == name) = false := by simpa using hn
            rw [List.lookup, hb] at h1
            exact Or.inl h1
        · exact Or.inr ⟨r, List.mem_cons_of_mem _ hr, h2⟩
      · exact keep h
    · exact keep h

theorem candidatesOf_eq (preferredColumns : List String) :
    candidatesOf preferredColumns
      = if preferredColumns = [] then ["timestamp", "event_time", "created_at"]
        else preferredColumns := by
  unfold candidatesOf
  cases preferredColumns with
  | nil => rfl
  | cons a l => simp

/-- With a present Calendar candidate the loop always returns a decision; an
epoch-integer decision is then that of a `UInt64` candidate ranked before
every Calendar candidate. -/
theorem detectLoop_calendar {σ : Type} (cl : Client σ) (database table : String)
    (columns : List (String × String)) (cands : List String) : ∀ (s : σ),
    (∃ name ∈ cands, ∃ t, columns.lookup name = some t ∧ isDateTimeType t = true) →
    ∃ d, (detectLoop cl database table columns cands s).1 = Except.ok d
      ∧ (d.IsUInt64 = false → isDateTimeType d.Type_ = true)
      ∧ (d.IsUInt64 = true → HasPrefix d.Type_ "UInt64" = true ∧ isDateTimeType d.Type_ = false
          ∧ ∃ pre post, cands = pre ++ d.Name :: post
            ∧ ∀ nm ∈ pre, ∀ t, columns.lookup nm = some t → isDateTimeType t = false) := by
  induction cands with
  | nil => intro s h; simp at h
  | cons c rest ih =>
    intro s h
    rw [detectLoop_cons]
    cases hq : qualifies cl database table columns c s with
    | some d =>
      simp only []
      obtain ⟨hn, _, hk⟩ := qualifies_some cl database table columns c s d hq
      refine ⟨d, rfl, ?_, ?_⟩
      · intro hu
        rcases hk with ⟨_, h1⟩ | ⟨h1, _⟩
        · exact h1
        · rw [hu] at h1
          exact absurd h1 (by simp)
      · intro hu
        rcases hk with ⟨h1, _⟩ | ⟨_, h2, h3, _⟩
        · rw [hu] at h1
          exact absurd h1 (by simp)
        · exact ⟨h3, h2, [], rest, by simp [hn], by simp⟩
    | none =>
      simp only []
      have hc : ∀ t, columns.lookup c = some t → isDateTimeType t = false := by
        intro t hl
        by_contra hne
        have ht : isDateTimeType t = true := by simpa using hne
        rw [qualifies_calendar cl database table columns c t s hl ht] at hq
        exact absurd hq (by simp)
      have hrest : ∃ name ∈ rest, ∃ t, columns.lookup name = some t ∧ isDateTimeType t = true := by
        obtain ⟨name, hmem, t, hl, ht⟩ := h
        rcases List.mem_cons.1 hmem with he | hm
        · subst he
          rw [hc t hl] at ht
          exact absurd ht (by simp)
        · exact ⟨name, hm, t, hl, ht⟩
      obtain ⟨d, hd, h1, h2⟩ := ih (afterExam cl database table columns c s) hrest
      refine ⟨d, hd, h1, ?_⟩
      intro hu
      obtain ⟨a, b, pre, post, he, hpre⟩ := h2 hu
      refine ⟨a, b, c :: pre, post, by simp [he], ?_⟩
      intro nm hnm t hl
      rcases List.mem_cons.1 hnm with he2 | hm
      · subst he2
        exact hc t hl
      · exact hpre nm hm t hl

/-- C4: when the catalog query succeeds, `DetectTimeColumn` returns the decision
of the first candidate, in list order, that qualifies (present with a Calendar
type, or present with a `UInt64` type and a probe that returns true), each
candidate being examined at the connection state the earlier ones left; it
returns `ErrNoTimeColumn`, and no other error, exactly when no candidate
qualifies. A Calendar candidate that no earlier candidate beats is the result
whatever follows it, and no candidate ranked before the winner is a Calendar
column. The candidates are `preferredColumns` when non-empty, else the three
default names. -/
theorem C4_DetectTimeColumn_first_qualifying_candidate {σ : Type} (cl : Client σ)
    (database table : String) (preferredColumns : List String) (s s1 : σ) (rows : List Row)
    (hq : cl.Query detectQuery [Value.str database, Value.str table] s = (Except.ok rows, s1)) :
    let columns := buildColumns rows []
    let candidates :=
      if preferredColumns = [] then ["timestamp", "event_time", "created_at"]
      else preferredColumns
    let result := (DetectTimeColumn cl database table preferredColumns s).1
    (∀ d, result = Except.ok d
        ↔ ∃ k name, candidates[k]? = some name
            ∧ qualifies cl database table columns name
                (stateAt cl database table columns candidates s1 k) = some d
            ∧ ∀ j nm, j < k → candidates[j]? = some nm →
                qualifies cl database table columns nm
                  (stateAt cl database table columns candidates s1 j) = none)
    ∧ (∀ e, result = Except.error e
        ↔ e = ErrNoTimeColumn ∧ ∀ j nm, candidates[j]? = some nm →
            qualifies cl database table columns nm
              (stateAt cl database table columns candidates s1 j) = none)
    ∧ (∀ k name t, candidates[k]? = some name → columns.lookup name = some t →
        isDateTimeType t = true →
        (∀ j nm, j < k → candidates[j]? = some nm →
          qualifies cl database table columns nm
            (stateAt cl database table columns candidates s1 j) = none) →
        result = Except.ok { Name := name, Type_ := t, IsUInt64 := false })
    ∧ (∀ d k name, candidates[k]? = some name
        → qualifies cl database table columns name
            (stateAt cl database table columns candidates s1 k) = some d
        → (∀ j nm, j < k → candidates[j]? = some nm →
            qualifies cl database table columns nm
              (stateAt cl database table columns candidates s1 j) = none)
        → ∀ j nm t, j < k → candidates[j]? = some nm → columns.lookup nm = some t →
            isDateTimeType t = false) := by
  intro columns candidates result
  have hres : result = (detectLoop cl database table columns candidates s1).1 := by
    show (DetectTimeColumn cl database table preferredColumns s).1 = _
    rw [DetectTimeColumn_of_rows cl database table preferredColumns s s1 rows hq,
      candidatesOf_eq]
  refine ⟨?_, ?_, ?_, ?_⟩
  · intro d
    rw [hres]
    exact detectLoop_ok_iff cl database table columns candidates s1 d
  · intro e
    rw [hres]
    exact detectLoop_error_iff cl database table columns candidates s1 e
  · intro k name t hk hl ht hnone
    rw [hres]
    exact (detectLoop_ok_iff cl database table columns candidates s1 _).2
      ⟨k, name, hk, qualifies_calendar cl database table columns name t _ hl ht, hnone⟩
  · intro d k name _ _ hnone j nm t hj hnm hl
    by_contra hne
    have ht : isDateTimeType t = true := by simpa using hne
    have := hnone j nm hj hnm
    rw [qualifies_calendar cl database table columns nm t _ hl ht] at this
    exact absurd this (by simp)

/-- C4 at a sample: `timestamp` is a `UInt64` column of second resolution and
`event_time` a `DateTime` column; the default candidates give the Calendar
decision for `event_time`. -/
theorem C4_witness_seconds_then_calendar :
    (sampleClient secondSamples).Query detectQuery [Value.str "db", Value.str "t"] ()
        = (Except.ok sampleCatalog, ())
    ∧ (DetectTimeColumn (sampleClient secondSamples) "db" "t" [] ()).1
        = Except.ok { Name := "event_time", Type_ := "DateTime", IsUInt64 := false } :=
  ⟨rfl,
    (C4_DetectTimeColumn_first_qualifying_candidate (sampleClient secondSamples) "db" "t" []
      () () sampleCatalog rfl).2.2.1 1 "event_time" "DateTime" (by decide) (by decide)
      (by decide) (by
        intro j nm hj hnm
        have hj0 : j = 0 := by omega
        subst hj0
        have : nm = "timestamp" := by simpa using hnm.symm
        subst this
        decide)⟩

/-- C5: whenever `DetectTimeColumn` returns a decision, the catalog query
succeeded, the decision's column name is in the candidate list used, the
catalog declares that column with the decision's type, and the returned
decision is the only one. -/
theorem C5_decision_is_candidate_in_catalog {σ : Type} (cl : Client σ)
    (database table : String) (preferredColumns : List String) (s s2 : σ) (d : TimeColumn)
    (h : DetectTimeColumn cl database table preferredColumns s = (Except.ok d, s2)) :
    ∃ rows s1, cl.Query detectQuery [Value.str database, Value.str table] s = (Except.ok rows, s1)
      ∧ d.Name ∈ (if preferredColumns = [] then ["timestamp", "event_time", "created_at"]
                  else preferredColumns)
      ∧ (buildColumns rows []).lookup d.Name = some d.Type_
      ∧ (∃ row ∈ rows, row.lookup "name" = some (Value.str d.Name)
          ∧ row.lookup "type" = some (Value.str d.Type_))
      ∧ ∀ d2 s3, DetectTimeColumn cl database table preferredColumns s = (Except.ok d2, s3) →
          d2 = d := by
  rcases hq : cl.Query detectQuery [Value.str database, Value.str table] s with ⟨r, s1⟩
  cases r with
  | error e =>
    unfold DetectTimeColumn at h
    rw [hq] at h
    simp at h
  | ok rows =>
    refine ⟨rows, s1, rfl, ?_⟩
    rw [DetectTimeColumn_of_rows cl database table preferredColumns s s1 rows hq] at h
    have h1 : (detectLoop cl database table (buildColumns rows [])
        (candidatesOf preferredColumns) s1).1 = Except.ok d := by rw [h]
    obtain ⟨k, name, hk, hqual, _⟩ := (detectLoop_ok_iff _ _ _ _ _ _ _).1 h1
    obtain ⟨hn, hl, _⟩ := qualifies_some _ _ _ _ _ _ _ hqual
    have hmem : name ∈ candidatesOf preferredColumns := List.getElem?_mem hk
    rw [candidatesOf_eq] at hmem
    rw [← hn] at hmem hl
    refine ⟨hmem, hl, ?_, ?_⟩
    · rcases buildColumns_lookup rows [] d.Name d.Type_ hl with h0 | h0
      · simp at h0
      · exact h0
    · intro d2 s3 h2
      rw [DetectTimeColumn_of_rows cl database table preferredColumns s s1 rows hq, h] at h2
      have h3 : d = d2 ∧ s2 = s3 := by simpa using h2
      exact h3.1.symm

/-- C5 at a sample: with nanosecond samples the decision is `timestamp`, one of
the default candidates, declared `UInt64` by the catalog. -/
theorem C5_witness_nano_timestamp :
    DetectTimeColumn (sampleClient nanoSamples) "db" "t" [] ()
        = (Except.ok { Name := "timestamp", Type_ := "UInt64", IsUInt64 := true }, ())
    ∧ ∃ rows s1, (sampleClient nanoSamples).Query detectQuery [Value.str "db", Value.str "t"] ()
          = (Except.ok rows, s1)
        ∧ "timestamp" ∈ ["timestamp", "event_time", "created_at"]
        ∧ (buildColumns rows []).lookup "timestamp" = some "UInt64"
        ∧ (∃ row ∈ rows, row.lookup "name" = some (Value.str "timestamp")
            ∧ row.lookup "type" = some (Value.str "UInt64"))
        ∧ ∀ d2 s3, DetectTimeColumn (sampleClient nanoSamples) "db" "t" [] () = (Except.ok d2, s3) →
            d2 = { Name := "timestamp", Type_ := "UInt64", IsUInt64 := true } :=
  ⟨by decide,
    C5_decision_is_candidate_in_catalog (sampleClient nanoSamples) "db" "t" [] () ()
      { Name := "timestamp", Type_ := "UInt64", IsUInt64 := true } (by decide)⟩

/-- C6, as stated, fails: `event_time` is a default candidate present with the
Calendar type `DateTime`, yet the decision is the epoch-integer one for the
`UInt64` column `timestamp`, which ranks first and passes its probe. -/
theorem C6_counterexample_epoch_ranked_before_calendar :
    "event_time" ∈ candidatesOf []
    ∧ (buildColumns sampleCatalog []).lookup "event_time" = some "DateTime"
    ∧ isDateTimeType "DateTime" = true
    ∧ (sampleClient nanoSamples).Query detectQuery [Value.str "db", Value.str "t"] ()
        = (Except.ok sampleCatalog, ())
    ∧ DetectTimeColumn (sampleClient nanoSamples) "db" "t" [] ()
        = (Except.ok { Name := "timestamp", Type_ := "UInt64", IsUInt64 := true }, ()) := by
  decide

/-- A candidate that is no Calendar column and passes no probe does not
qualify. -/
theorem qualifies_none_of {σ : Type} (cl : Client σ) (database table : String)
    (columns : List (String × String)) (name : String) (s : σ)
    (hcal : ∀ t, columns.lookup name = some t → isDateTimeType t = false)
    (hprobe : ∀ t, columns.lookup name = some t → HasPrefix t "UInt64" = true →
      (isNanoTimestamp cl database table name s).1 ≠ Except.ok true) :
    qualifies cl database table columns name s = none := by
  cases hq : qualifies cl database table columns name s with
  | none => rfl
  | some d =>
    exfalso
    obtain ⟨_, hl, hcase⟩ := qualifies_some cl database table columns name s d hq
    rcases hcase with ⟨_, h1⟩ | ⟨_, _, h2, h3⟩
    · rw [hcal d.Type_ hl] at h1
      exact absurd h1 (by simp)
    · exact hprobe d.Type_ hl h2 h3

/-- A present `UInt64` candidate, not of a Calendar type, whose probe returns
true earns the epoch-integer decision. -/
theorem qualifies_epoch {σ : Type} (cl : Client σ) (database table : String)
    (columns : List (String × String)) (name t : String) (s : σ)
    (hl : columns.lookup name = some t) (hcal : isDateTimeType t = false)
    (hu : HasPrefix t "UInt64" = true)
    (hp : (isNanoTimestamp cl database table name s).1 = Except.ok true) :
    qualifies cl database table columns name s
      = some { Name := name, Type_ := t, IsUInt64 := true } := by
  unfold qualifies
  rw [hl]
  simp only []
  rw [hcal, if_neg Bool.false_ne_true, hu, if_pos rfl, hp]

/-- Among the candidates, a present Calendar column of lowest rank. -/
theorem first_calendar_exists (columns : List (String × String)) (cands : List String)
    (name t : String) (hmem : name ∈ cands) (hl : columns.lookup name = some t)
    (ht : isDateTimeType t = true) :
    ∃ k0 nm0 t0, cands[k0]? = some nm0 ∧ columns.lookup nm0 = some t0
      ∧ isDateTimeType t0 = true
      ∧ ∀ (j : Nat) (nm t2 : String), j < k0 → cands[j]? = some nm →
          columns.lookup nm = some t2 → isDateTimeType t2 = false := by
  classical
  obtain ⟨k, hk⟩ := List.mem_iff_getElem?.1 hmem
  have hex : ∃ k : Nat, ∃ nm t2, cands[k]? = some nm ∧ columns.lookup nm = some t2
      ∧ isDateTimeType t2 = true := ⟨k, name, t, hk, hl, ht⟩
  obtain ⟨nm0, t0, h1, h2, h3⟩ := Nat.find_spec hex
  refine ⟨Nat.find hex, nm0, t0, h1, h2, h3, ?_⟩
  intro j nm t2 hj hnm hl2
  by_contra hne
  have htrue : isDateTimeType t2 = true := by simpa using hne
  exact Nat.find_min hex hj ⟨nm, t2, hnm, hl2, htrue⟩

/-- C6 (amended): when the catalog query succeeds and at least one candidate is
present with a Calendar type, `DetectTimeColumn` returns a decision, never
`ErrNoTimeColumn`, and the decision is fixed by the first Calendar candidate:
it is the Calendar decision (`IsUInt64 = false`) of that candidate when no
`UInt64` candidate ranked before it passes its probe, and otherwise it is the
epoch-integer decision (`IsUInt64 = true`) of the first `UInt64` candidate
ranked before it that passes its probe. A decision with `IsUInt64 = false` has
a Calendar type; a decision with `IsUInt64 = true` is that of a `UInt64`
candidate ranked before every Calendar candidate. -/
theorem C6_calendar_wins_unless_epoch_ranked_before {σ : Type} (cl : Client σ)
    (database table : String) (preferredColumns : List String) (s s1 : σ) (rows : List Row)
    (name t : String)
    (hq : cl.Query detectQuery [Value.str database, Value.str table] s = (Except.ok rows, s1))
    (hmem : name ∈ candidatesOf preferredColumns)
    (hl : (buildColumns rows []).lookup name = some t)
    (ht : isDateTimeType t = true) :
    (∃ d, (DetectTimeColumn cl database table preferredColumns s).1 = Except.ok d
      ∧ (d.IsUInt64 = false → isDateTimeType d.Type_ = true)
      ∧ (d.IsUInt64 = true → HasPrefix d.Type_ "UInt64" = true ∧ isDateTimeType d.Type_ = false
          ∧ ∃ pre post, candidatesOf preferredColumns = pre ++ d.Name :: post
            ∧ ∀ nm ∈ pre, ∀ t2, (buildColumns rows []).lookup nm = some t2 →
                isDateTimeType t2 = false)
      ∧ ((∀ j nm t2, (candidatesOf preferredColumns)[j]? = some nm →
            (buildColumns rows []).lookup nm = some t2 → HasPrefix t2 "UInt64" = true →
            (isNanoTimestamp cl database table nm
              (stateAt cl database table (buildColumns rows []) (candidatesOf preferredColumns)
                s1 j)).1 ≠ Except.ok true)
          → d.IsUInt64 = false))
    ∧ (∃ (k0 : Nat) (nm0 t0 : String), (candidatesOf preferredColumns)[k0]? = some nm0
        ∧ (buildColumns rows []).lookup nm0 = some t0 ∧ isDateTimeType t0 = true
        ∧ ∀ (j : Nat) (nm t2 : String), j < k0 → (candidatesOf preferredColumns)[j]? = some nm →
            (buildColumns rows []).lookup nm = some t2 → isDateTimeType t2 = false)
    ∧ ∀ (k0 : Nat) (nm0 t0 : String), (candidatesOf preferredColumns)[k0]? = some nm0 →
        (buildColumns rows []).lookup nm0 = some t0 → isDateTimeType t0 = true →
        (∀ (j : Nat) (nm t2 : String), j < k0 → (candidatesOf preferredColumns)[j]? = some nm →
            (buildColumns rows []).lookup nm = some t2 → isDateTimeType t2 = false) →
        ((∀ (j : Nat) (nm t2 : String), j < k0 →
              (candidatesOf preferredColumns)[j]? = some nm →
              (buildColumns rows []).lookup nm = some t2 → HasPrefix t2 "UInt64" = true →
              (isNanoTimestamp cl database table nm
                (stateAt cl database table (buildColumns rows [])
                  (candidatesOf preferredColumns) s1 j)).1 ≠ Except.ok true) →
            (DetectTimeColumn cl database table preferredColumns s).1
              = Except.ok { Name := nm0, Type_ := t0, IsUInt64 := false })
        ∧ ∀ (j : Nat) (nm t2 : String), j < k0 →
            (candidatesOf preferredColumns)[j]? = some nm →
            (buildColumns rows []).lookup nm = some t2 → HasPrefix t2 "UInt64" = true →
            (isNanoTimestamp cl database table nm
              (stateAt cl database table (buildColumns rows [])
                (candidatesOf preferredColumns) s1 j)).1 = Except.ok true →
            (∀ (i : Nat) (nm2 t3 : String), i < j →
              (candidatesOf preferredColumns)[i]? = some nm2 →
              (buildColumns rows []).lookup nm2 = some t3 → HasPrefix t3 "UInt64" = true →
              (isNanoTimestamp cl database table nm2
                (stateAt cl database table (buildColumns rows [])
                  (candidatesOf preferredColumns) s1 i)).1 ≠ Except.ok true) →
            (DetectTimeColumn cl database table preferredColumns s).1
              = Except.ok { Name := nm, Type_ := t2, IsUInt64 := true } := by
  rw [DetectTimeColumn_of_rows cl database table preferredColumns s s1 rows hq]
  refine ⟨?_, first_calendar_exists _ _ name t hmem hl ht, ?_⟩
  · obtain ⟨d, hd, h1, h2⟩ := detectLoop_calendar cl database table (buildColumns rows [])
      (candidatesOf preferredColumns) s1 ⟨name, hmem, t, hl, ht⟩
    refine ⟨d, hd, h1, h2, ?_⟩
    intro hprobe
    obtain ⟨k, nm, hk, hqual, _⟩ := (detectLoop_ok_iff _ _ _ _ _ _ _).1 hd
    obtain ⟨_, hlk, hcase⟩ := qualifies_some _ _ _ _ _ _ _ hqual
    rcases hcase with ⟨hu, _⟩ | ⟨_, _, hpre, hp⟩
    · exact hu
    · exact absurd hp (hprobe k nm d.Type_ hk hlk hpre)
  · intro k0 nm0 t0 hk0 hl0 ht0 hfirst
    constructor
    · intro hnone
      refine (detectLoop_ok_iff _ _ _ _ _ _ _).2
        ⟨k0, nm0, hk0, qualifies_calendar _ _ _ _ nm0 t0 _ hl0 ht0, ?_⟩
      intro j nm hj hnm
      exact qualifies_none_of _ _ _ _ nm _
        (fun t2 hl2 => hfirst j nm t2 hj hnm hl2)
        (fun t2 hl2 hu => hnone j nm t2 hj hnm hl2 hu)
    · intro j nm t2 hj hnm hl2 hu hp hbefore
      refine (detectLoop_ok_iff _ _ _ _ _ _ _).2
        ⟨j, nm, hnm, qualifies_epoch _ _ _ _ nm t2 _ hl2 (hfirst j nm t2 hj hnm hl2) hu hp, ?_⟩
      intro i nm2 hi hnm2
      exact qualifies_none_of _ _ _ _ nm2 _
        (fun t3 hl3 => hfirst i nm2 t3 (Nat.lt_trans hi hj) hnm2 hl3)
        (fun t3 hl3 hu3 => hbefore i nm2 t3 hi hnm2 hl3 hu3)

/-- C6 (amended) at the sample catalog, where the `UInt64` column `timestamp`
ranks before the `DateTime` column `event_time`: with nanosecond samples the
probe passes and the decision is the epoch-integer one for `timestamp`; with
second-resolution samples it does not and the decision is the Calendar one for
`event_time`. -/
theorem C6_witness_calendar_after_failed_probe :
    (sampleClient nanoSamples).Query detectQuery [Value.str "db", Value.str "t"] ()
        = (Except.ok sampleCatalog, ())
    ∧ "event_time" ∈ candidatesOf []
    ∧ (buildColumns sampleCatalog []).lookup "event_time" = some "DateTime"
    ∧ isDateTimeType "DateTime" = true
    ∧ (DetectTimeColumn (sampleClient nanoSamples) "db" "t" [] ()).1
        = Except.ok { Name := "timestamp", Type_ := "UInt64", IsUInt64 := true }
    ∧ (DetectTimeColumn (sampleClient secondSamples) "db" "t" [] ()).1
        = Except.ok { Name := "event_time", Type_ := "DateTime", IsUInt64 := false } :=
  ⟨rfl, by decide, by decide, by decide,
    ((C6_calendar_wins_unless_epoch_ranked_before (sampleClient nanoSamples) "db" "t" [] () ()
      sampleCatalog "event_time" "DateTime" rfl (by decide) (by decide) (by decide)).2.2
        1 "event_time" "DateTime" (by decide) (by decide) (by decide) (by
          intro j nm t2 hj hnm hl2
          have hj0 : j = 0 := by omega
          subst hj0
          have h1 : nm = "timestamp" := by
            have h0 : (candidatesOf [])[0]? = some "timestamp" := by decide
            rw [h0] at hnm
            exact (Option.some.inj hnm).symm
          subst h1
          have h2 : t2 = "UInt64" := by
            have : (buildColumns sampleCatalog []).lookup "timestamp" = some "UInt64" := by decide
            rw [this] at hl2
            exact (Option.some.inj hl2).symm
          subst h2
          decide)).2
      0 "timestamp" "UInt64" (by decide) (by decide) (by decide) (by decide) (by decide)
      (fun i _ _ hi => absurd hi (Nat.not_lt_zero i)),
    ((C6_calendar_wins_unless_epoch_ranked_before (sampleClient secondSamples) "db" "t" []
      () () sampleCatalog "event_time" "DateTime" rfl (by decide) (by decide) (by decide)).2.2
        1 "event_time" "DateTime" (by decide) (by decide) (by decide) (by
          intro j nm t2 hj hnm hl2
          have hj0 : j = 0 := by omega
          subst hj0
          have h1 : nm = "timestamp" := by
            have h0 : (candidatesOf [])[0]? = some "timestamp" := by decide
            rw [h0] at hnm
            exact (Option.some.inj hnm).symm
          subst h1
          have h2 : t2 = "UInt64" := by
            have : (buildColumns sampleCatalog []).lookup "timestamp" = some "UInt64" := by decide
            rw [this] at hl2
            exact (Option.some.inj hl2).symm
          subst h2
          decide)).1
      (by
        intro j nm t2 hj hnm _ _
        have hj0 : j = 0 := by omega
        subst hj0
        have h1 : nm = "timestamp" := by
            have h0 : (candidatesOf [])[0]? = some "timestamp" := by decide
            rw [h0] at hnm
            exact (Option.some.inj hnm).symm
        subst h1
        decide)⟩

/-! ## Result aggregation -/

theorem countLoop_counts (l : List ExecutionResult) : ∀ s0 : Summary,
    (countLoop l s0).Total = s0.Total
    ∧ (countLoop l s0).Skipped = s0.Skipped + (l.countP (fun r => r.Skipped) : Nat)
    ∧ (countLoop l s0).Success
        = s0.Success + (l.countP (fun r => !r.Skipped && r.Success) : Nat)
    ∧ (countLoop l s0).Failed
        = s0.Failed + (l.countP (fun r => !r.Skipped && !r.Success) : Nat) := by
  induction l with
  | nil => intro s0; simp [countLoop]
  | cons r rest ih =>
    intro s0
    unfold countLoop
    by_cases hs : r.Skipped = true
    · rw [if_pos hs]
      obtain ⟨a, b, c, d⟩ := ih { s0 with Skipped := s0.Skipped + 1 }
      simp [a, b, c, d, hs, List.countP_cons]
      omega
    · rw [if_neg hs]
      by_cases hk : r.Success = true
      · rw [if_pos hk]
        obtain ⟨a, b, c, d⟩ := ih { s0 with Success := s0.Success + 1 }
        simp [a, b, c, d, hs, hk, List.countP_cons]
        omega
      · rw [if_neg hk]
        obtain ⟨a, b, c, d⟩ := ih { s0 with Failed := s0.Failed + 1 }
        simp [a, b, c, d, hs, hk, List.countP_cons]
        omega

theorem countP_three (l : List ExecutionResult) :
    l.countP (fun r => !r.Skipped && r.Success) + l.countP (fun r => !r.Skipped && !r.Success)
      + l.countP (fun r => r.Skipped) = l.length := by
  induction l with
  | nil => rfl
  | cons r rest ih =>
    simp only [List.countP_cons, List.length_cons]
    cases r.Skipped <;> cases r.Success <;> simp <;> omega

theorem foldl_AddResult (outcomes : List ExecutionResult) : ∀ r : Reporter,
    (outcomes.foldl AddResult r).results = r.results ++ outcomes := by
  induction outcomes with
  | nil => intro r; simp
  | cons o rest ih => intro r; simp [ih, AddResult]

/-- C8: after any sequence of outcomes is added to a fresh reporter, the
summary has `Total` equal to their number and `Success + Failed + Skipped =
Total`; `Skipped` counts the outcomes with the skipped flag, `Success` those
without it and with the success flag, `Failed` the others. -/
theorem C8_summary_counts_partition (verbose dryRun : Bool) (outcomes : List ExecutionResult) :
    let summary := PrintSummary (outcomes.foldl AddResult (NewReporter verbose dryRun))
    summary.Total = (outcomes.length : Int)
    ∧ summary.Success + summary.Failed + summary.Skipped = summary.Total
    ∧ summary.Skipped = (outcomes.countP (fun r => r.Skipped) : Nat)
    ∧ summary.Success = (outcomes.countP (fun r => !r.Skipped && r.Success) : Nat)
    ∧ summary.Failed = (outcomes.countP (fun r => !r.Skipped && !r.Success) : Nat) := by
  intro summary
  have hres : (outcomes.foldl AddResult (NewReporter verbose dryRun)).results = outcomes := by
    rw [foldl_AddResult]
    rfl
  obtain ⟨a, b, c, d⟩ := countLoop_counts outcomes
    { Total := (outcomes.length : Int), Success := 0, Failed := 0, Skipped := 0 }
  have hsum : summary = countLoop outcomes
      { Total := (outcomes.length : Int), Success := 0, Failed := 0, Skipped := 0 } := by
    show PrintSummary _ = _
    unfold PrintSummary
    rw [hres]
  have h3 := countP_three outcomes
  rw [hsum, a, b, c, d]
  simp only [zero_add]
  refine ⟨trivial, ?_, trivial, trivial, trivial⟩
  omega



/-! ## The table loop and the exit status -/

theorem Execute_names {σ : Type} (cl : Client σ) (e : Executor) (table : TableInfo)
    (timeCol : TimeColumn) (days : Int) (s : σ) :
    (Execute cl e table timeCol days s).1.Database = table.Database
    ∧ (Execute cl e table timeCol days s).1.Table = table.Table := by
  unfold Execute
  simp only []
  split
  · exact ⟨rfl, rfl⟩
  · split <;> exact ⟨rfl, rfl⟩

/-- An execution error is captured in the outcome. -/
theorem Execute_error {σ : Type} (cl : Client σ) (e : Executor) (table : TableInfo)
    (timeCol : TimeColumn) (days : Int) (s s2 : σ) (err : GoError) (hd : e.dryRun = false)
    (hx : cl.Exec (generateTTLSQL e table.Database table.Table timeCol days) [] s
      = (some err, s2)) :
    Execute cl e table timeCol days s
      = ({ Database := table.Database, Table := table.Table, TimeColumn := timeCol.Name,
           TimeType := timeCol.Type_,
           SQL := generateTTLSQL e table.Database table.Table timeCol days,
           Success := false, Error := some (GoError.wrap "failed to execute TTL: " err),
           Skipped := false, SkipReason := "" }, s2) := by
  unfold Execute
  simp only [hd, hx, Bool.false_eq_true, if_false]

/-- Each pass through the loop body adds exactly one outcome, for its table. -/
theorem loopBody_results {σ : Type} (cl : Client σ) (cfg : Config) (exec : Executor)
    (total i : Int) (table : TableInfo) (st : LoopState σ) :
    ∃ r, (loopBody cl cfg exec total i table st).rep.results = st.rep.results ++ [r]
      ∧ r.Database = table.Database ∧ r.Table = table.Table := by
  unfold loopBody
  rcases DetectTimeColumn cl table.Database table.Table table.TimeColumns st.world with ⟨res, s1⟩
  cases res with
  | error e => exact ⟨_, rfl, rfl, rfl⟩
  | ok timeCol =>
    exact ⟨(Execute cl exec table timeCol cfg.RetentionDays s1).1, rfl,
      (Execute_names cl exec table timeCol cfg.RetentionDays s1).1,
      (Execute_names cl exec table timeCol cfg.RetentionDays s1).2⟩

/-- The reporter and the connection state after the loop body do not depend on
the loop index, on the table count or on the pauses taken. -/
theorem loopBody_indep {σ : Type} (cl : Client σ) (cfg : Config) (exec : Executor)
    (total total2 i i2 : Int) (table : TableInfo) (st st2 : LoopState σ)
    (hr : st.rep = st2.rep) (hw : st.world = st2.world) :
    (loopBody cl cfg exec total i table st).rep = (loopBody cl cfg exec total2 i2 table st2).rep
    ∧ (loopBody cl cfg exec total i table st).world
        = (loopBody cl cfg exec total2 i2 table st2).world := by
  unfold loopBody
  rw [hr, hw]
  rcases DetectTimeColumn cl table.Database table.Table table.TimeColumns st2.world with ⟨res, s1⟩
  cases res with
  | error e => exact ⟨rfl, rfl⟩
  | ok timeCol => exact ⟨rfl, rfl⟩

theorem tableLoop_indep {σ : Type} (cl : Client σ) (cfg : Config) (exec : Executor)
    (tables : List TableInfo) : ∀ (total total2 i i2 : Int) (st st2 : LoopState σ),
    st.rep = st2.rep → st.world = st2.world →
    (tableLoop cl cfg exec total i tables st).rep = (tableLoop cl cfg exec total2 i2 tables st2).rep
    ∧ (tableLoop cl cfg exec total i tables st).world
        = (tableLoop cl cfg exec total2 i2 tables st2).world := by
  induction tables with
  | nil => intro total total2 i i2 st st2 hr hw; exact ⟨hr, hw⟩
  | cons table rest ih =>
    intro total total2 i i2 st st2 hr hw
    obtain ⟨h1, h2⟩ := loopBody_indep cl cfg exec total total2 i i2 table st st2 hr hw
    exact ih total total2 (i + 1) (i2 + 1) _ _ h1 h2

theorem tableLoop_append {σ : Type} (cl : Client σ) (cfg : Config) (exec : Executor)
    (total : Int) (l1 l2 : List TableInfo) : ∀ (i : Int) (st : LoopState σ),
    tableLoop cl cfg exec total i (l1 ++ l2) st
      = tableLoop cl cfg exec total (i + (l1.length : Int)) l2
          (tableLoop cl cfg exec total i l1 st) := by
  induction l1 with
  | nil => intro i st; simp [tableLoop]
  | cons table rest ih =>
    intro i st
    rw [List.cons_append, tableLoop, tableLoop, ih, List.length_cons]
    congr 1
    push_cast
    ring

/-- The loop adds one outcome per table, in table order. -/
theorem tableLoop_results {σ : Type} (cl : Client σ) (cfg : Config) (exec : Executor)
    (total : Int) (tables : List TableInfo) : ∀ (i : Int) (st : LoopState σ),
    ∃ rs, (tableLoop cl cfg exec total i tables st).rep.results = st.rep.results ++ rs
      ∧ rs.map (fun r => (r.Database, r.Table)) = tables.map (fun t => (t.Database, t.Table)) := by
  induction tables with
  | nil => intro i st; exact ⟨[], by simp [tableLoop], rfl⟩
  | cons table rest ih =>
    intro i st
    obtain ⟨r, hr, hdb, htb⟩ := loopBody_results cl cfg exec total i table st
    obtain ⟨rs, hrs, hmap⟩ := ih (i + 1) (loopBody cl cfg exec total i table st)
    refine ⟨r :: rs, ?_, ?_⟩
    · rw [tableLoop, hrs, hr]
      simp
    · simp [hmap, hdb, htb]

/-- A table whose statement fails gets the failed outcome, and the loop body
ends in the state the failed execution left. -/
theorem loopBody_failed {σ : Type} (cl : Client σ) (cfg : Config) (exec : Executor)
    (total i : Int) (table : TableInfo) (st : LoopState σ) (timeCol : TimeColumn) (s1 s2 : σ)
    (err : GoError)
    (hdet : DetectTimeColumn cl table.Database table.Table table.TimeColumns st.world
      = (Except.ok timeCol, s1))
    (hd : exec.dryRun = false)
    (hx : cl.Exec (generateTTLSQL exec table.Database table.Table timeCol cfg.RetentionDays) [] s1
      = (some err, s2)) :
    (loopBody cl cfg exec total i table st).rep.results
      = st.rep.results ++
        [{ Database := table.Database, Table := table.Table, TimeColumn := timeCol.Name,
           TimeType := timeCol.Type_,
           SQL := generateTTLSQL exec table.Database table.Table timeCol cfg.RetentionDays,
           Success := false, Error := some (GoError.wrap "failed to execute TTL: " err),
           Skipped := false, SkipReason := "" }]
    ∧ (loopBody cl cfg exec total i table st).world = s2 := by
  unfold loopBody
  rw [hdet]
  simp only []
  rw [Execute_error cl exec table timeCol cfg.RetentionDays s1 s2 err hd hx]
  exact ⟨rfl, rfl⟩

/-- C9: the table loop of `run` produces exactly one outcome per table, in table
order, whatever the collaborators answer; and for a table whose time column is
detected, in mutating mode, and whose statement execution returns an error, the
outcome at that table's position has the error set, `Success = false` and
`Skipped = false`, the tables after it receiving their outcomes all the same.
The state at which table `i` is reached is the one the loop over the first `i`
tables leaves. -/
theorem C9_one_outcome_per_table_and_failure_isolated {σ : Type} (cl : Client σ)
    (cfg : Config) (tables : List TableInfo) (s : σ) :
    (processTables cl cfg tables s).rep.results.length = tables.length
    ∧ (processTables cl cfg tables s).rep.results.map (fun r => (r.Database, r.Table))
        = tables.map (fun t => (t.Database, t.Table))
    ∧ ∀ (i : Nat) (table : TableInfo) (timeCol : TimeColumn) (s1 s2 : σ) (err : GoError),
        tables[i]? = some table →
        DetectTimeColumn cl table.Database table.Table table.TimeColumns
            (processTables cl cfg (tables.take i) s).world = (Except.ok timeCol, s1) →
        cfg.DryRun = false →
        cl.Exec (generateTTLSQL { dryRun := cfg.DryRun, verbose := cfg.Verbose }
            table.Database table.Table timeCol cfg.RetentionDays) [] s1 = (some err, s2) →
        ∃ r, (processTables cl cfg tables s).rep.results[i]? = some r
          ∧ r.Database = table.Database ∧ r.Table = table.Table
          ∧ r.Error = some (GoError.wrap "failed to execute TTL: " err)
          ∧ r.Success = false ∧ r.Skipped = false := by
  have hall := tableLoop_results cl cfg { dryRun := cfg.DryRun, verbose := cfg.Verbose }
    (tables.length : Int) tables 0
    { rep := NewReporter cfg.Verbose cfg.DryRun, world := s, sleeps := [] }
  obtain ⟨rs, hrs, hmap⟩ := hall
  have hres : (processTables cl cfg tables s).rep.results = rs := by
    unfold processTables
    rw [hrs]
    rfl
  refine ⟨?_, ?_, ?_⟩
  · rw [hres]
    have := congrArg List.length hmap
    simpa using this
  · rw [hres]
    exact hmap
  · intro i table timeCol s1 s2 err hi hdet hdry hx
    obtain ⟨hlt, hget⟩ := List.getElem?_eq_some.1 hi
    have hsplit : tables = tables.take i ++ table :: tables.drop (i + 1) := by
      rw [← hget, ← List.drop_eq_getElem_cons hlt, List.take_append_drop]
    have key : ∀ T : Int,
        tableLoop cl cfg { dryRun := cfg.DryRun, verbose := cfg.Verbose } T 0 tables
          { rep := NewReporter cfg.Verbose cfg.DryRun, world := s, sleeps := [] }
        = tableLoop cl cfg { dryRun := cfg.DryRun, verbose := cfg.Verbose } T
            (0 + ((tables.take i).length : Int) + 1) (tables.drop (i + 1))
            (loopBody cl cfg { dryRun := cfg.DryRun, verbose := cfg.Verbose } T
              (0 + ((tables.take i).length : Int)) table
              (tableLoop cl cfg { dryRun := cfg.DryRun, verbose := cfg.Verbose } T 0
                (tables.take i)
                { rep := NewReporter cfg.Verbose cfg.DryRun, world := s, sleeps := [] })) := by
      intro T
      conv_lhs => rw [hsplit]
      rw [tableLoop_append, tableLoop]
    obtain ⟨rsI, hrsI, hmapI⟩ := tableLoop_results cl cfg
      { dryRun := cfg.DryRun, verbose := cfg.Verbose } (tables.length : Int) (tables.take i) 0
      { rep := NewReporter cfg.Verbose cfg.DryRun, world := s, sleeps := [] }
    have hlenI : rsI.length = i := by
      have := congrArg List.length hmapI
      simp only [List.length_map, List.length_take] at this
      omega
    have hworld := (tableLoop_indep cl cfg { dryRun := cfg.DryRun, verbose := cfg.Verbose }
      (tables.take i) (tables.length : Int) ((tables.take i).length : Int) 0 0
      { rep := NewReporter cfg.Verbose cfg.DryRun, world := s, sleeps := [] }
      { rep := NewReporter cfg.Verbose cfg.DryRun, world := s, sleeps := [] } rfl rfl).2
    have hdet2 : DetectTimeColumn cl table.Database table.Table table.TimeColumns
        (tableLoop cl cfg { dryRun := cfg.DryRun, verbose := cfg.Verbose } (tables.length : Int) 0
          (tables.take i)
          { rep := NewReporter cfg.Verbose cfg.DryRun, world := s, sleeps := [] }).world
        = (Except.ok timeCol, s1) := by
      rw [hworld]
      exact hdet
    obtain ⟨hbody, _⟩ := loopBody_failed cl cfg { dryRun := cfg.DryRun, verbose := cfg.Verbose }
      (tables.length : Int) (0 + ((tables.take i).length : Int)) table _ timeCol s1 s2 err
      hdet2 hdry hx
    obtain ⟨rs2, hrs2, _⟩ := tableLoop_results cl cfg
      { dryRun := cfg.DryRun, verbose := cfg.Verbose } (tables.length : Int)
      (tables.drop (i + 1)) (0 + ((tables.take i).length : Int) + 1)
      (loopBody cl cfg { dryRun := cfg.DryRun, verbose := cfg.Verbose } (tables.length : Int)
        (0 + ((tables.take i).length : Int)) table
        (tableLoop cl cfg { dryRun := cfg.DryRun, verbose := cfg.Verbose } (tables.length : Int) 0
          (tables.take i)
          { rep := NewReporter cfg.Verbose cfg.DryRun, world := s, sleeps := [] }))
    have hfinal : (processTables cl cfg tables s).rep.results
        = (rsI ++
          [{ Database := table.Database, Table := table.Table, TimeColumn := timeCol.Name,
             TimeType := timeCol.Type_,
             SQL := generateTTLSQL { dryRun := cfg.DryRun, verbose := cfg.Verbose }
               table.Database table.Table timeCol cfg.RetentionDays,
             Success := false, Error := some (GoError.wrap "failed to execute TTL: " err),
             Skipped := false, SkipReason := "" }]) ++ rs2 := by
      unfold processTables
      rw [key, hrs2, hbody, hrsI]
      rfl
    refine ⟨{ Database := table.Database, Table := table.Table, TimeColumn := timeCol.Name,
              TimeType := timeCol.Type_,
              SQL := generateTTLSQL { dryRun := cfg.DryRun, verbose := cfg.Verbose }
                table.Database table.Table timeCol cfg.RetentionDays,
              Success := false, Error := some (GoError.wrap "failed to execute TTL: " err),
              Skipped := false, SkipReason := "" }, ?_, rfl, rfl, rfl, rfl, rfl⟩
    rw [hfinal, List.getElem?_append_left (by simp [hlenI]), ← hlenI]
    exact List.getElem?_concat_length _ _

/-- C9 at the sample run: the statement of the first table fails, its outcome
carries the error, and the second table is processed and succeeds. -/
theorem C9_witness_first_table_fails :
    sampleTableInfos[0]? = some sampleEvents
    ∧ (∃ r, (processTables failingClient sampleConfig sampleTableInfos 0).rep.results[0]? = some r
          ∧ r.Database = "db" ∧ r.Table = "events"
          ∧ r.Error = some (GoError.wrap "failed to execute TTL: " (GoError.new "timeout"))
          ∧ r.Success = false ∧ r.Skipped = false)
    ∧ (processTables failingClient sampleConfig sampleTableInfos 0).rep.results.map
          (fun r => (r.Table, r.Success)) = [("events", false), ("logs", true)] :=
  ⟨by decide,
    (C9_one_outcome_per_table_and_failure_isolated failingClient sampleConfig
      sampleTableInfos 0).2.2 0 sampleEvents
      { Name := "timestamp", Type_ := "UInt64", IsUInt64 := true } 0 1 (GoError.new "timeout")
      (by decide) (by decide) (by decide) (by decide),
    by decide⟩

theorem PrintSummary_failed (rep : Reporter) :
    (PrintSummary rep).Failed = (rep.results.countP (fun r => !r.Skipped && !r.Success) : Nat) := by
  unfold PrintSummary
  have := (countLoop_counts rep.results
    { Total := (rep.results.length : Int), Success := 0, Failed := 0, Skipped := 0 }).2.2.2
  simpa using this

theorem failed_pos_iff (rep : Reporter) :
    (PrintSummary rep).Failed > 0 ↔ ∃ r ∈ rep.results, r.Skipped = false ∧ r.Success = false := by
  rw [PrintSummary_failed]
  constructor
  · intro h
    have h2 : 0 < rep.results.countP (fun r => !r.Skipped && !r.Success) := by exact_mod_cast h
    obtain ⟨r, hr, hp⟩ := List.countP_pos_iff.1 h2
    exact ⟨r, hr, by simpa using hp⟩
  · rintro ⟨r, hr, h1, h2⟩
    have h3 : 0 < rep.results.countP (fun r => !r.Skipped && !r.Success) :=
      List.countP_pos_iff.2 ⟨r, hr, by simp [h1, h2]⟩
    exact_mod_cast h3

/-- Once the table loop is reached, `run` returns what the summary decides. -/
theorem run_of_loop {σ : Type} (env : Env σ) (cfg : Config) (s0 s1 : σ)
    (tables : List TableInfo)
    (hv : cfg.Validate = none) (hc : env.NewClient cfg = Except.ok s0)
    (hs : ScanTables env.client cfg.Database s0 = (Except.ok tables, s1))
    (hne : tables ≠ []) (hconf : cfg.DryRun = true ∨ env.confirm = cfg.Database) :
    run env cfg
      = if (PrintSummary (processTables env.client cfg tables s1).rep).Failed > 0 then
          some (GoError.new "部分表执行失败")
        else none := by
  unfold run
  rw [hv]
  simp only []
  rw [hc]
  simp only []
  rw [hs]
  simp only []
  have hlen : ¬ tables.length = 0 := fun h => hne (List.length_eq_zero.1 h)
  rw [if_neg hlen]
  have hgate : ¬ ((!cfg.DryRun && env.confirm != cfg.Database) = true) := by
    rcases hconf with h | h
    · simp [h]
    · simp [h]
  rw [if_neg hgate]

/-- C10: once the table loop has run (valid configuration, connection and scan
succeeded, at least one table, and preview mode or a confirmed prompt), `run`
returns an error, and the process exits with status 1, if and only if some
outcome is Failed (not skipped and not successful); when every outcome is
skipped or successful, in particular when every table is skipped, `run`
returns nil and the exit status is 0. -/
theorem C10_run_fails_iff_some_outcome_failed {σ : Type} (env : Env σ) (cfg : Config)
    (s0 s1 : σ) (tables : List TableInfo)
    (hv : cfg.Validate = none) (hc : env.NewClient cfg = Except.ok s0)
    (hs : ScanTables env.client cfg.Database s0 = (Except.ok tables, s1))
    (hne : tables ≠ []) (hconf : cfg.DryRun = true ∨ env.confirm = cfg.Database) :
    (run env cfg ≠ none
        ↔ ∃ r ∈ (processTables env.client cfg tables s1).rep.results,
            r.Skipped = false ∧ r.Success = false)
    ∧ (main env cfg = 1
        ↔ ∃ r ∈ (processTables env.client cfg tables s1).rep.results,
            r.Skipped = false ∧ r.Success = false)
    ∧ ((∀ r ∈ (processTables env.client cfg tables s1).rep.results,
          r.Skipped = true ∨ r.Success = true) → run env cfg = none ∧ main env cfg = 0)
    ∧ ((∀ r ∈ (processTables env.client cfg tables s1).rep.results, r.Skipped = true)
        → run env cfg = none ∧ main env cfg = 0) := by
  have hrun := run_of_loop env cfg s0 s1 tables hv hc hs hne hconf
  have hiff := failed_pos_iff (processTables env.client cfg tables s1).rep
  have h1 : run env cfg ≠ none
      ↔ ∃ r ∈ (processTables env.client cfg tables s1).rep.results,
          r.Skipped = false ∧ r.Success = false := by
    rw [hrun, ← hiff]
    by_cases hf : (PrintSummary (processTables env.client cfg tables s1).rep).Failed > 0
    · simp [hf]
    · simp [hf]
  have h2 : main env cfg = 1 ↔ run env cfg ≠ none := by
    unfold main
    cases run env cfg <;> simp
  have h3 : (∀ r ∈ (processTables env.client cfg tables s1).rep.results,
      r.Skipped = true ∨ r.Success = true) → run env cfg = none ∧ main env cfg = 0 := by
    intro hall
    have hn : run env cfg = none := by
      by_contra hne2
      obtain ⟨r, hr, ha, hb⟩ := h1.1 hne2
      rcases hall r hr with h | h
      · rw [ha] at h
        exact absurd h (by simp)
      · rw [hb] at h
        exact absurd h (by simp)
    refine ⟨hn, ?_⟩
    unfold main
    rw [hn]
  exact ⟨h1, h2.trans h1, h3, fun hall => h3 (fun r hr => Or.inl (hall r hr))⟩

set_option maxRecDepth 100000 in
/-- C10 at the sample run: the loop is reached, the first table fails, and `run`
returns an error. -/
theorem C10_witness_sample_run_fails :
    sampleConfig.Validate = none
    ∧ sampleEnv.NewClient sampleConfig = Except.ok 0
    ∧ ScanTables sampleEnv.client sampleConfig.Database 0 = (Except.ok sampleTableInfos, 0)
    ∧ sampleTableInfos ≠ []
    ∧ sampleEnv.confirm = sampleConfig.Database
    ∧ (run sampleEnv sampleConfig ≠ none
        ↔ ∃ r ∈ (processTables sampleEnv.client sampleConfig sampleTableInfos 0).rep.results,
            r.Skipped = false ∧ r.Success = false)
    ∧ run sampleEnv sampleConfig = some (GoError.new "部分表执行失败") :=
  ⟨by decide, rfl, by decide, by decide, by decide,
    (C10_run_fails_iff_some_outcome_failed sampleEnv sampleConfig 0 0 sampleTableInfos
      (by decide) rfl (by decide) (by decide) (Or.inr (by decide))).1,
    by decide⟩

/-! ## Configuration validation -/

theorem Validate_none_iff (c : Config) :
    c.Validate = none
      ↔ c.Host ≠ "" ∧ 1 ≤ c.Port ∧ c.Port ≤ 65535 ∧ c.User ≠ "" ∧ c.Database ≠ ""
        ∧ c.RetentionDays > 0 := by
  unfold Config.Validate
  by_cases h1 : c.Host = ""
  · simp [h1]
  · rw [if_neg h1]
    by_cases h2 : c.Port ≤ 0 ∨ c.Port > 65535
    · rw [if_pos h2]
      simp only [false_iff, reduceCtorEq]
      intro h
      omega
    · rw [if_neg h2]
      by_cases h3 : c.User = ""
      · simp [h3]
      · rw [if_neg h3]
        by_cases h4 : c.Database = ""
        · simp [h4]
        · rw [if_neg h4]
          by_cases h5 : c.RetentionDays ≤ 0
          · rw [if_pos h5]
            simp only [false_iff, reduceCtorEq]
            intro h
            omega
          · rw [if_neg h5]
            simp only [true_iff]
            refine ⟨h1, ?_, ?_, h3, h4, ?_⟩ <;> omega

/-! ## The resolution probe -/

theorem Sprintf_lit_s (lit : String) (x : String) (h : '%' ∉ lit.data) :
    sprintfAux (lit.data ++ [ '%', 's']) [Value.str x] = (lit ++ x).data := by
  rw [sprintfAux_lit _ _ _ h, sprintfAux_s]
  simp [sprintfAux, String.data_append]

theorem sampleLoop_uint64 (column : String) (rows : List Row)
    (hall : ∀ row ∈ rows, ∃ v, row.lookup column = some (Value.uint64 v)
      ∧ v < 18446744073709551616) :
    sampleLoop column rows = true
      ↔ ∃ row ∈ rows, ∃ v, row.lookup column = some (Value.uint64 v)
          ∧ v > 100000000000000000 := by
  induction rows with
  | nil => simp [sampleLoop]
  | cons row rest ih =>
    obtain ⟨v, hv, hlt⟩ := hall row (List.mem_cons_self _ _)
    have ih2 := ih (fun r hr => hall r (List.mem_cons_of_mem _ hr))
    unfold sampleLoop
    rw [hv]
    simp only [sampleValue, Nat.mod_eq_of_lt hlt, nanoThreshold]
    by_cases hgt : v > 100000000000000000
    · rw [if_pos hgt]
      simp only [true_iff]
      exact ⟨row, List.mem_cons_self _ _, v, hv, hgt⟩
    · rw [if_neg hgt, ih2]
      constructor
      · rintro ⟨r, hr, w, hw, hwgt⟩
        exact ⟨r, List.mem_cons_of_mem _ hr, w, hw, hwgt⟩
      · rintro ⟨r, hr, w, hw, hwgt⟩
        rcases List.mem_cons.1 hr with he | hm
        · subst he
          rw [hv] at hw
          have : v = w := by simpa using hw
          subst this
          exact absurd hwgt hgt
        · exact ⟨r, hm, w, hw, hwgt⟩

theorem isNanoTimestamp_of_rows {σ : Type} (cl : Client σ) (database table column : String)
    (s s1 : σ) (rows : List Row)
    (hq : cl.Query (Sprintf "SELECT %s FROM %s.%s WHERE %s > 0 LIMIT 10"
        [Value.str (EscapeIdentifier column), Value.str (EscapeIdentifier database),
         Value.str (EscapeIdentifier table), Value.str (EscapeIdentifier column)]) [] s
      = (Except.ok rows, s1)) :
    isNanoTimestamp cl database table column s
      = if rows.length = 0 then
          (Except.error (GoError.new ("no data to sample in column " ++ column)), s1)
        else (Except.ok (sampleLoop column rows), s1) := by
  unfold isNanoTimestamp
  simp only []
  rw [hq]
  simp only []
  have hmsg : Sprintf "no data to sample in column %s" [Value.str column]
      = "no data to sample in column " ++ column := by
    apply String.ext
    exact Sprintf_lit_s "no data to sample in column " column (by decide)
  rw [hmsg]

/-- A present `UInt64` candidate whose probe fails is skipped: the loop goes on
with the next candidate from the state the probe left. -/
theorem detectLoop_probe_error {σ : Type} (cl : Client σ) (database table : String)
    (columns : List (String × String)) (name colType : String) (rest : List String) (s s1 : σ)
    (e : GoError) (hl : columns.lookup name = some colType)
    (h1 : isDateTimeType colType = false) (h2 : HasPrefix colType "UInt64" = true)
    (hp : isNanoTimestamp cl database table name s = (Except.error e, s1)) :
    detectLoop cl database table columns (name :: rest) s
      = detectLoop cl database table columns rest s1 := by
  rw [detectLoop, hl]
  simp only []
  rw [h1, if_neg Bool.false_ne_true, h2, if_pos rfl, hp]

/-- C13: when the sampling query returns a non-empty list of rows that hold
unsigned 64-bit values, `isNanoTimestamp` returns, without error, true exactly
when some sampled value is strictly greater than 10^17; so rows that all hold
exactly 10^17 give false and a row holding 10^17 + 1 gives true. When the
query returns no row it returns an error, and `DetectTimeColumn` then skips
the candidate and goes on with the next one. The samples `[10, 20,
1700000000000000000]` give true. -/
theorem C13_isNanoTimestamp_threshold {σ : Type} (cl : Client σ)
    (database table column : String) (s s1 : σ) (rows : List Row)
    (hq : cl.Query (Sprintf "SELECT %s FROM %s.%s WHERE %s > 0 LIMIT 10"
        [Value.str (EscapeIdentifier column), Value.str (EscapeIdentifier database),
         Value.str (EscapeIdentifier table), Value.str (EscapeIdentifier column)]) [] s
      = (Except.ok rows, s1)) :
    (rows ≠ [] →
      (∀ row ∈ rows, ∃ v, row.lookup column = some (Value.uint64 v) ∧ v < 18446744073709551616) →
      ∃ b, isNanoTimestamp cl database table column s = (Except.ok b, s1)
        ∧ (b = true ↔ ∃ row ∈ rows, ∃ v, row.lookup column = some (Value.uint64 v)
            ∧ v > 100000000000000000))
    ∧ (rows ≠ [] →
        (∀ row ∈ rows, row.lookup column = some (Value.uint64 100000000000000000)) →
        isNanoTimestamp cl database table column s = (Except.ok false, s1))
    ∧ (rows ≠ [] →
        (∀ row ∈ rows, ∃ v, row.lookup column = some (Value.uint64 v)
          ∧ v < 18446744073709551616) →
        (∃ row ∈ rows, row.lookup column = some (Value.uint64 100000000000000001)) →
        isNanoTimestamp cl database table column s = (Except.ok true, s1))
    ∧ (rows = [] →
        isNanoTimestamp cl database table column s
          = (Except.error (GoError.new ("no data to sample in column " ++ column)), s1)
        ∧ ∀ (columns : List (String × String)) (colType : String) (rest : List String),
            columns.lookup column = some colType → isDateTimeType colType = false →
            HasPrefix colType "UInt64" = true →
            detectLoop cl database table columns (column :: rest) s
              = detectLoop cl database table columns rest s1)
    ∧ isNanoTimestamp (sampleClient nanoSamples) "db" "t" "timestamp" () = (Except.ok true, ()) := by
  have hres := isNanoTimestamp_of_rows cl database table column s s1 rows hq
  have hne : rows ≠ [] → ¬ rows.length = 0 := fun h h0 => h (List.length_eq_zero.1 h0)
  refine ⟨?_, ?_, ?_, ?_, by decide⟩
  · intro hr hall
    rw [hres, if_neg (hne hr)]
    exact ⟨sampleLoop column rows, rfl, sampleLoop_uint64 column rows hall⟩
  · intro hr hall
    rw [hres, if_neg (hne hr)]
    have hall2 : ∀ row ∈ rows, ∃ v, row.lookup column = some (Value.uint64 v)
        ∧ v < 18446744073709551616 :=
      fun row hrow => ⟨100000000000000000, hall row hrow, by decide⟩
    have hf : sampleLoop column rows = false := by
      by_contra hcon
      have ht : sampleLoop column rows = true := by simpa using hcon
      obtain ⟨row, hrow, v, hv, hgt⟩ := (sampleLoop_uint64 column rows hall2).1 ht
      rw [hall row hrow] at hv
      have : (100000000000000000 : Nat) = v := by simpa using hv
      omega
    rw [hf]
  · intro hr hall hex
    rw [hres, if_neg (hne hr)]
    obtain ⟨row, hrow, hv⟩ := hex
    have ht : sampleLoop column rows = true :=
      (sampleLoop_uint64 column rows hall).2 ⟨row, hrow, 100000000000000001, hv, by decide⟩
    rw [ht]
  · intro hr
    have herr : isNanoTimestamp cl database table column s
        = (Except.error (GoError.new ("no data to sample in column " ++ column)), s1) := by
      rw [hres, hr]
      rfl
    refine ⟨herr, ?_⟩
    intro columns colType rest hl h1 h2
    exact detectLoop_probe_error cl database table columns column colType rest s s1 _ hl h1 h2 herr

/-- C13 at the sample of the specification: the rows `[10, 20,
1700000000000000000]` hold unsigned 64-bit values, one above the threshold, and
the probe returns true. -/
theorem C13_witness_sample_rows :
    (sampleClient nanoSamples).Query (Sprintf "SELECT %s FROM %s.%s WHERE %s > 0 LIMIT 10"
        [Value.str (EscapeIdentifier "timestamp"), Value.str (EscapeIdentifier "db"),
         Value.str (EscapeIdentifier "t"), Value.str (EscapeIdentifier "timestamp")]) [] ()
      = (Except.ok nanoSamples, ())
    ∧ nanoSamples ≠ []
    ∧ ∃ b, isNanoTimestamp (sampleClient nanoSamples) "db" "t" "timestamp" () = (Except.ok b, ())
        ∧ (b = true ↔ ∃ row ∈ nanoSamples, ∃ v, row.lookup "timestamp" = some (Value.uint64 v)
            ∧ v > 100000000000000000) :=
  ⟨by decide, by decide,
    (C13_isNanoTimestamp_threshold (sampleClient nanoSamples) "db" "t" "timestamp" () ()
      nanoSamples (by decide)).1 (by decide) (by
        intro row hrow
        simp only [nanoSamples, List.mem_cons, List.mem_singleton, List.not_mem_nil,
          or_false] at hrow
        rcases hrow with h | h | h <;> subst h
        · exact ⟨10, by decide, by decide⟩
        · exact ⟨20, by decide, by decide⟩
        · exact ⟨1700000000000000000, by decide, by decide⟩)⟩

/-! ## Skipped tables -/

theorem Join_data (sep : String) (l : List String) :
    (Join l sep).data = List.intercalate sep.data (l.map String.data) := by
  induction l with
  | nil => rfl
  | cons a rest ih =>
    cases rest with
    | nil => simp [Join, List.intercalate]
    | cons b r =>
      rw [Join, String.data_append, String.data_append, ih]
      simp [List.intercalate]

theorem Join_contains (sep : String) (l : List String) :
    ∀ name ∈ l, Contains (Join l sep) name := by
  induction l with
  | nil => intro name h; simp at h
  | cons a rest ih =>
    intro name h
    unfold Contains
    cases rest with
    | nil =>
      have : name = a := by simpa using h
      subst this
      exact List.infix_refl _
    | cons b r =>
      rw [Join, String.data_append, String.data_append]
      rcases List.mem_cons.1 h with he | hm
      · subst he
        rw [List.append_assoc]
        exact (List.prefix_append _ _).isInfix
      · exact (ih name hm).trans (List.suffix_append _ _).isInfix

theorem skipReason_text (x : String) :
    Sprintf "时间列 [%s] 验证失败" [Value.str x] = "时间列 [" ++ x ++ "] 验证失败" := by
  apply String.ext
  have h1 : '%' ∉ "时间列 [".data := by decide
  have h2 : '%' ∉ "] 验证失败".data := by decide
  show sprintfAux ("时间列 [".data ++ '%' :: 's' :: ("] 验证失败".data ++ [])) [Value.str x] = _
  rw [sprintfAux_lit _ _ _ h1, sprintfAux_s, sprintfAux_lit _ _ _ h2]
  simp [sprintfAux, String.data_append]

theorem isNanoTimestamp_Exec_indep {σ : Type} (cl : Client σ)
    (exec2 : String → List Value → σ → Option GoError × σ) (database table column : String)
    (s : σ) :
    isNanoTimestamp { Query := cl.Query, Exec := exec2 } database table column s
      = isNanoTimestamp cl database table column s := rfl

theorem detectLoop_Exec_indep {σ : Type} (cl : Client σ)
    (exec2 : String → List Value → σ → Option GoError × σ) (database table : String)
    (columns : List (String × String)) (cands : List String) : ∀ s : σ,
    detectLoop { Query := cl.Query, Exec := exec2 } database table columns cands s
      = detectLoop cl database table columns cands s := by
  induction cands with
  | nil => intro s; rfl
  | cons name rest ih =>
    intro s
    rw [detectLoop, detectLoop]
    simp only [isNanoTimestamp_Exec_indep, ih]

theorem DetectTimeColumn_Exec_indep {σ : Type} (cl : Client σ)
    (exec2 : String → List Value → σ → Option GoError × σ) (database table : String)
    (preferredColumns : List String) (s : σ) :
    DetectTimeColumn { Query := cl.Query, Exec := exec2 } database table preferredColumns s
      = DetectTimeColumn cl database table preferredColumns s := by
  unfold DetectTimeColumn
  simp only [detectLoop_Exec_indep]

/-- The outcome recorded for a table without decision. -/
theorem loopBody_skipped {σ : Type} (cl : Client σ) (cfg : Config) (exec : Executor)
    (total i : Int) (table : TableInfo) (st : LoopState σ) (e : GoError) (s1 : σ)
    (hdet : DetectTimeColumn cl table.Database table.Table table.TimeColumns st.world
      = (Except.error e, s1)) :
    loopBody cl cfg exec total i table st
      = { rep := AddResult st.rep
            { Database := table.Database, Table := table.Table, TimeColumn := "", TimeType := "",
              SQL := "", Success := false, Error := none, Skipped := true,
              SkipReason :=
                if table.TimeColumns = [] then "未找到合适的时间字段"
                else "时间列 [" ++ Join table.TimeColumns ", " ++ "] 验证失败" },
          world := s1, sleeps := st.sleeps } := by
  unfold loopBody
  rw [hdet]
  simp only []
  cases hT : table.TimeColumns with
  | nil => rfl
  | cons a l =>
    rw [if_pos (by simp), if_neg (by simp), skipReason_text]

/-- The outcome at a table's position is the one the loop body adds for that
table, entered at the state the loop over the earlier tables leaves. -/
theorem processTables_at {σ : Type} (cl : Client σ) (cfg : Config) (tables : List TableInfo)
    (s : σ) (i : Nat) (table : TableInfo) (r : ExecutionResult)
    (hi : tables[i]? = some table)
    (hbody : ∀ (total j : Int) (st : LoopState σ),
      st.world = (processTables cl cfg (tables.take i) s).world →
      (loopBody cl cfg { dryRun := cfg.DryRun, verbose := cfg.Verbose } total j table st).rep.results
        = st.rep.results ++ [r]) :
    (processTables cl cfg tables s).rep.results[i]? = some r := by
  obtain ⟨hlt, hget⟩ := List.getElem?_eq_some.1 hi
  have hsplit : tables = tables.take i ++ table :: tables.drop (i + 1) := by
    rw [← hget, ← List.drop_eq_getElem_cons hlt, List.take_append_drop]
  have key : ∀ T : Int,
      tableLoop cl cfg { dryRun := cfg.DryRun, verbose := cfg.Verbose } T 0 tables
        { rep := NewReporter cfg.Verbose cfg.DryRun, world := s, sleeps := [] }
      = tableLoop cl cfg { dryRun := cfg.DryRun, verbose := cfg.Verbose } T
          (0 + ((tables.take i).length : Int) + 1) (tables.drop (i + 1))
          (loopBody cl cfg { dryRun := cfg.DryRun, verbose := cfg.Verbose } T
            (0 + ((tables.take i).length : Int)) table
            (tableLoop cl cfg { dryRun := cfg.DryRun, verbose := cfg.Verbose } T 0
              (tables.take i)
              { rep := NewReporter cfg.Verbose cfg.DryRun, world := s, sleeps := [] })) := by
    intro T
    conv_lhs => rw [hsplit]
    rw [tableLoop_append, tableLoop]
  obtain ⟨rsI, hrsI, hmapI⟩ := tableLoop_results cl cfg
    { dryRun := cfg.DryRun, verbose := cfg.Verbose } (tables.length : Int) (tables.take i) 0
    { rep := NewReporter cfg.Verbose cfg.DryRun, world := s, sleeps := [] }
  have hlenI : rsI.length = i := by
    have := congrArg List.length hmapI
    simp only [List.length_map, List.length_take] at this
    omega
  have hworld := (tableLoop_indep cl cfg { dryRun := cfg.DryRun, verbose := cfg.Verbose }
    (tables.take i) (tables.length : Int) ((tables.take i).length : Int) 0 0
    { rep := NewReporter cfg.Verbose cfg.DryRun, world := s, sleeps := [] }
    { rep := NewReporter cfg.Verbose cfg.DryRun, world := s, sleeps := [] } rfl rfl).2
  have hb := hbody (tables.length : Int) (0 + ((tables.take i).length : Int))
    (tableLoop cl cfg { dryRun := cfg.DryRun, verbose := cfg.Verbose } (tables.length : Int) 0
      (tables.take i)
      { rep := NewReporter cfg.Verbose cfg.DryRun, world := s, sleeps := [] }) hworld
  obtain ⟨rs2, hrs2, _⟩ := tableLoop_results cl cfg
    { dryRun := cfg.DryRun, verbose := cfg.Verbose } (tables.length : Int)
    (tables.drop (i + 1)) (0 + ((tables.take i).length : Int) + 1)
    (loopBody cl cfg { dryRun := cfg.DryRun, verbose := cfg.Verbose } (tables.length : Int)
      (0 + ((tables.take i).length : Int)) table
      (tableLoop cl cfg { dryRun := cfg.DryRun, verbose := cfg.Verbose } (tables.length : Int) 0
        (tables.take i)
        { rep := NewReporter cfg.Verbose cfg.DryRun, world := s, sleeps := [] }))
  have hfinal : (processTables cl cfg tables s).rep.results = (rsI ++ [r]) ++ rs2 := by
    unfold processTables
    rw [key, hrs2, hb, hrsI]
    rfl
  rw [hfinal, List.getElem?_append_left (by simp [hlenI]), ← hlenI]
  exact List.getElem?_concat_length _ _

/-- The connection state after a table is the one its loop body leaves. -/
theorem processTables_world_succ {σ : Type} (cl : Client σ) (cfg : Config)
    (tables : List TableInfo) (s : σ) (i : Nat) (table : TableInfo) (w : σ)
    (hi : tables[i]? = some table)
    (hbody : ∀ (total j : Int) (st : LoopState σ),
      st.world = (processTables cl cfg (tables.take i) s).world →
      (loopBody cl cfg { dryRun := cfg.DryRun, verbose := cfg.Verbose } total j table st).world
        = w) :
    (processTables cl cfg (tables.take (i + 1)) s).world = w := by
  have htake : tables.take (i + 1) = tables.take i ++ [table] := by
    rw [List.take_succ, hi]
    rfl
  have hworld := (tableLoop_indep cl cfg { dryRun := cfg.DryRun, verbose := cfg.Verbose }
    (tables.take i) ((tables.take (i + 1)).length : Int) ((tables.take i).length : Int) 0 0
    { rep := NewReporter cfg.Verbose cfg.DryRun, world := s, sleeps := [] }
    { rep := NewReporter cfg.Verbose cfg.DryRun, world := s, sleeps := [] } rfl rfl).2
  have hb := hbody ((tables.take (i + 1)).length : Int) (0 + ((tables.take i).length : Int))
    (tableLoop cl cfg { dryRun := cfg.DryRun, verbose := cfg.Verbose }
      ((tables.take (i + 1)).length : Int) 0 (tables.take i)
      { rep := NewReporter cfg.Verbose cfg.DryRun, world := s, sleeps := [] }) hworld
  have key : ∀ T : Int,
      tableLoop cl cfg { dryRun := cfg.DryRun, verbose := cfg.Verbose } T 0
        (tables.take (i + 1))
        { rep := NewReporter cfg.Verbose cfg.DryRun, world := s, sleeps := [] }
      = loopBody cl cfg { dryRun := cfg.DryRun, verbose := cfg.Verbose } T
          (0 + ((tables.take i).length : Int)) table
          (tableLoop cl cfg { dryRun := cfg.DryRun, verbose := cfg.Verbose } T 0
            (tables.take i)
            { rep := NewReporter cfg.Verbose cfg.DryRun, world := s, sleeps := [] }) := by
    intro T
    rw [htake, tableLoop_append, tableLoop, tableLoop]
  unfold processTables
  rw [key]
  exact hb

/-- C11: for a table for which `DetectTimeColumn` returns no decision, the
loop body records one outcome with `Skipped = true`, `Success = false`, no
error and an empty statement, leaves the connection in the state the
classifier left and would do the same under any execution collaborator, so the
statement is neither synthesized nor executed; the outcome stands at the
table's position. Its `SkipReason` is the fixed message when the table has no
discovered candidate, and otherwise the validation message built on the
candidate names joined by `, ` in their order, which contains each of them. -/
theorem C11_no_decision_gives_skipped_outcome {σ : Type} (cl : Client σ) (cfg : Config)
    (tables : List TableInfo) (s : σ) (i : Nat) (table : TableInfo) (e : GoError) (s1 : σ)
    (hi : tables[i]? = some table)
    (hdet : DetectTimeColumn cl table.Database table.Table table.TimeColumns
      (processTables cl cfg (tables.take i) s).world = (Except.error e, s1)) :
    (∃ r, (processTables cl cfg tables s).rep.results[i]? = some r
      ∧ r.Database = table.Database ∧ r.Table = table.Table
      ∧ r.Skipped = true ∧ r.Success = false ∧ r.Error = none ∧ r.SQL = ""
      ∧ (table.TimeColumns = [] → r.SkipReason = "未找到合适的时间字段")
      ∧ (table.TimeColumns ≠ [] →
          r.SkipReason = "时间列 [" ++ Join table.TimeColumns ", " ++ "] 验证失败"
          ∧ ∀ name ∈ table.TimeColumns, Contains r.SkipReason name))
    ∧ (Join table.TimeColumns ", ").data
        = List.intercalate ", ".data (table.TimeColumns.map String.data)
    ∧ (processTables cl cfg (tables.take (i + 1)) s).world = s1
    ∧ ∀ (exec2 : String → List Value → σ → Option GoError × σ) (total j : Int)
        (st : LoopState σ), st.world = (processTables cl cfg (tables.take i) s).world →
        loopBody { Query := cl.Query, Exec := exec2 } cfg
            { dryRun := cfg.DryRun, verbose := cfg.Verbose } total j table st
          = loopBody cl cfg { dryRun := cfg.DryRun, verbose := cfg.Verbose } total j table st
        ∧ (loopBody cl cfg { dryRun := cfg.DryRun, verbose := cfg.Verbose } total j table
            st).sleeps = st.sleeps := by
  have hbody : ∀ (cl2 : Client σ), cl2.Query = cl.Query → ∀ (total j : Int) (st : LoopState σ),
      st.world = (processTables cl cfg (tables.take i) s).world →
      loopBody cl2 cfg { dryRun := cfg.DryRun, verbose := cfg.Verbose } total j table st
        = { rep := AddResult st.rep
              { Database := table.Database, Table := table.Table, TimeColumn := "",
                TimeType := "", SQL := "", Success := false, Error := none, Skipped := true,
                SkipReason :=
                  if table.TimeColumns = [] then "未找到合适的时间字段"
                  else "时间列 [" ++ Join table.TimeColumns ", " ++ "] 验证失败" },
            world := s1, sleeps := st.sleeps } := by
    intro cl2 hQ total j st hw
    apply loopBody_skipped cl2 cfg _ total j table st e s1
    have h2 : cl2 = { Query := cl.Query, Exec := cl2.Exec } := by
      cases cl2
      simp only [Client.mk.injEq, and_true]
      exact hQ
    rw [h2, DetectTimeColumn_Exec_indep, hw]
    exact hdet
  refine ⟨?_, Join_data ", " table.TimeColumns, ?_, ?_⟩
  · refine ⟨_, processTables_at cl cfg tables s i table _ hi (fun total j st hw => by
        rw [hbody cl rfl total j st hw]; rfl), rfl, rfl, rfl, rfl, rfl, rfl, ?_, ?_⟩
    · intro h0
      simp only []
      rw [if_pos h0]
    · intro h0
      simp only []
      rw [if_neg h0]
      refine ⟨rfl, ?_⟩
      intro name hname
      have hj := Join_contains ", " table.TimeColumns name hname
      unfold Contains at hj ⊢
      rw [String.data_append, String.data_append]
      exact hj.trans (List.infix_append _ _ _)
  · exact processTables_world_succ cl cfg tables s i table s1 hi (fun total j st hw => by
      rw [hbody cl rfl total j st hw])
  · intro exec2 total j st hw
    rw [hbody cl rfl total j st hw, hbody { Query := cl.Query, Exec := exec2 } rfl total j st hw]
    exact ⟨rfl, rfl⟩

/-- C11 at a sample: the table `raw` has no column and no discovered candidate,
the table `logs` has two discovered candidates and no column; both are skipped,
each with its reason. -/
theorem C11_witness_two_skip_reasons :
    [bareTable, sampleLogs][1]? = some sampleLogs
    ∧ (∃ r, (processTables partialClient sampleConfig [bareTable, sampleLogs] ()).rep.results[1]?
          = some r
        ∧ r.Skipped = true ∧ r.Success = false ∧ r.Error = none ∧ r.SQL = ""
        ∧ r.SkipReason = "时间列 [timestamp, event_time] 验证失败")
    ∧ (processTables partialClient sampleConfig [bareTable, sampleLogs] ()).rep.results.map
          (fun r => (r.Table, r.Skipped, r.SkipReason))
        = [("raw", true, "未找到合适的时间字段"),
           ("logs", true, "时间列 [timestamp, event_time] 验证失败")] := by
  obtain ⟨⟨r, hr, _, _, h1, h2, h3, h4, _, h5⟩, _⟩ :=
    C11_no_decision_gives_skipped_outcome partialClient sampleConfig [bareTable, sampleLogs] ()
      1 sampleLogs ErrNoTimeColumn () (by decide) (by decide)
  exact ⟨by decide, ⟨r, hr, h1, h2, h3, h4, (h5 (by decide)).1.trans (by decide)⟩, by decide⟩

/-! ## Pacing -/

theorem Execute_not_skipped {σ : Type} (cl : Client σ) (e : Executor) (table : TableInfo)
    (timeCol : TimeColumn) (days : Int) (s : σ) :
    (Execute cl e table timeCol days s).1.Skipped = false := by
  unfold Execute
  simp only []
  split
  · rfl
  · split <;> rfl

/-- One pass through the loop body adds one outcome and, in mutating mode,
one pause when the table is not skipped and is not the last one. -/
theorem loopBody_pause {σ : Type} (cl : Client σ) (cfg : Config) (exec : Executor)
    (total i : Int) (table : TableInfo) (st : LoopState σ) :
    ∃ r, (loopBody cl cfg exec total i table st).rep.results = st.rep.results ++ [r]
      ∧ (loopBody cl cfg exec total i table st).sleeps
          = st.sleeps ++
            (if cfg.DryRun = false ∧ r.Skipped = false ∧ i < total - 1 then [100] else []) := by
  unfold loopBody
  rcases DetectTimeColumn cl table.Database table.Table table.TimeColumns st.world with ⟨res, s1⟩
  cases res with
  | error e =>
    refine ⟨_, rfl, ?_⟩
    simp
  | ok timeCol =>
    refine ⟨(Execute cl exec table timeCol cfg.RetentionDays s1).1, rfl, ?_⟩
    simp only [Execute_not_skipped, true_and]
    cases cfg.DryRun with
    | true => simp
    | false =>
      by_cases h : i < total - 1
      · simp [h]
      · simp [h]

theorem tableLoop_pauses {σ : Type} (cl : Client σ) (cfg : Config) (exec : Executor)
    (total : Int) (tables : List TableInfo) : ∀ (i : Int) (st : LoopState σ),
    i + (tables.length : Int) = total →
    ∃ rs, (tableLoop cl cfg exec total i tables st).rep.results = st.rep.results ++ rs
      ∧ rs.length = tables.length
      ∧ (tableLoop cl cfg exec total i tables st).sleeps
          = st.sleeps ++ List.replicate
              (if cfg.DryRun = true then 0
               else rs.dropLast.countP (fun r => !r.Skipped)) 100 := by
  induction tables with
  | nil =>
    intro i st _
    refine ⟨[], by simp [tableLoop], rfl, ?_⟩
    simp [tableLoop]
  | cons table rest ih =>
    intro i st hi
    obtain ⟨r, hr, hs⟩ := loopBody_pause cl cfg exec total i table st
    have hi2 : (i + 1) + (rest.length : Int) = total := by
      rw [List.length_cons] at hi
      push_cast at hi
      omega
    obtain ⟨rs, hrs, hlen, hsl⟩ := ih (i + 1) (loopBody cl cfg exec total i table st) hi2
    refine ⟨r :: rs, ?_, by simp [hlen], ?_⟩
    · rw [tableLoop, hrs, hr]
      simp
    · rw [tableLoop, hsl, hs, List.append_assoc]
      congr 1
      cases hd : cfg.DryRun with
      | true => simp
      | false =>
        simp only [Bool.false_eq_true, if_false, true_and]
        cases rs with
        | nil =>
          have hrest : rest.length = 0 := by simpa using hlen.symm
          have hlast : ¬ i < total - 1 := by
            rw [hrest] at hi2
            push_cast at hi2
            omega
          simp [hlast]
        | cons a l =>
          have hrest : rest.length = l.length + 1 := by simpa using hlen.symm
          have hlt : i < total - 1 := by
            rw [hrest] at hi2
            push_cast at hi2
            omega
          cases hsk : r.Skipped with
          | true => simp [hlt, hsk, List.dropLast, List.countP_cons]
          | false => simp [hlt, hsk, List.dropLast, List.countP_cons, List.replicate_succ]

/-- C14, as stated, fails: in mutating mode, with two tables of which the first
is skipped and the second applied, the loop takes no pause, not one. -/
theorem C14_counterexample_skipped_table_takes_no_pause :
    sampleConfig.DryRun = false
    ∧ [bareTable, sampleEvents].length = 2
    ∧ (processTables partialClient sampleConfig [bareTable, sampleEvents] ()).rep.results.map
          (fun r => (r.Table, r.Skipped, r.Success)) = [("raw", true, false), ("events", false, true)]
    ∧ (processTables partialClient sampleConfig [bareTable, sampleEvents] ()).sleeps = [] := by
  decide

/-- C14 (amended): in preview mode the loop never pauses. In mutating mode the
loop body pauses for 100 ms exactly when its table is not skipped (applied or
failed) and is not the last one; so the pauses of a run are as many as the
non-skipped outcomes among all but the last, which is `n - 1` when none of
those is skipped. -/
theorem C14_pause_after_each_processed_table_but_last {σ : Type} (cl : Client σ)
    (cfg : Config) (tables : List TableInfo) (s : σ) :
    (cfg.DryRun = true → (processTables cl cfg tables s).sleeps = [])
    ∧ (cfg.DryRun = false →
        (processTables cl cfg tables s).sleeps
          = List.replicate
              ((processTables cl cfg tables s).rep.results.dropLast.countP
                (fun r => !r.Skipped)) 100)
    ∧ (cfg.DryRun = false →
        (∀ r ∈ (processTables cl cfg tables s).rep.results.dropLast, r.Skipped = false) →
        (processTables cl cfg tables s).sleeps = List.replicate (tables.length - 1) 100)
    ∧ ∀ (total j : Int) (table : TableInfo) (st : LoopState σ),
        ∃ r, (loopBody cl cfg { dryRun := cfg.DryRun, verbose := cfg.Verbose } total j table
              st).rep.results = st.rep.results ++ [r]
          ∧ (loopBody cl cfg { dryRun := cfg.DryRun, verbose := cfg.Verbose } total j table
              st).sleeps
            = st.sleeps ++
              (if cfg.DryRun = false ∧ r.Skipped = false ∧ j < total - 1 then [100] else []) := by
  obtain ⟨rs, hrs, hlen, hsl⟩ := tableLoop_pauses cl cfg
    { dryRun := cfg.DryRun, verbose := cfg.Verbose } (tables.length : Int) tables 0
    { rep := NewReporter cfg.Verbose cfg.DryRun, world := s, sleeps := [] } (by simp)
  have hres : (processTables cl cfg tables s).rep.results = rs := by
    unfold processTables
    rw [hrs]
    rfl
  have hsleeps : (processTables cl cfg tables s).sleeps
      = List.replicate (if cfg.DryRun = true then 0
          else rs.dropLast.countP (fun r => !r.Skipped)) 100 := by
    unfold processTables
    rw [hsl]
    rfl
  refine ⟨?_, ?_, ?_, ?_⟩
  · intro hd
    rw [hsleeps, if_pos hd]
    rfl
  · intro hd
    rw [hsleeps, hres, hd, if_neg Bool.false_ne_true]
  · intro hd hall
    rw [hsleeps, hd, if_neg Bool.false_ne_true]
    rw [hres] at hall
    have hc : rs.dropLast.countP (fun r => !r.Skipped) = rs.dropLast.length := by
      rw [List.countP_eq_length]
      intro r hr
      simp [hall r hr]
    rw [hc, List.length_dropLast, hlen]
  · intro total j table st
    exact loopBody_pause cl cfg _ total j table st

/-- C14 (amended) at the sample run: in mutating mode the first of two tables
fails, the second is applied, and one pause of 100 ms is taken between them. -/
theorem C14_witness_pause_after_failed_table :
    sampleConfig.DryRun = false
    ∧ (processTables failingClient sampleConfig sampleTableInfos 0).rep.results.map
          (fun r => (r.Skipped, r.Success)) = [(false, false), (false, true)]
    ∧ (processTables failingClient sampleConfig sampleTableInfos 0).sleeps
        = List.replicate (sampleTableInfos.length - 1) 100
    ∧ (processTables failingClient sampleConfig sampleTableInfos 0).sleeps = [100] :=
  ⟨by decide, by decide,
    (C14_pause_after_each_processed_table_but_last failingClient sampleConfig
      sampleTableInfos 0).2.2.1 (by decide) (by decide),
    by decide⟩

/-! ## Validation before any effect -/

theorem run_eq_runEffects_err {σ : Type} (env : Env σ) (cfg : Config) :
    run env cfg = (runEffects env cfg).err := by
  unfold run runEffects
  cases cfg.Validate with
  | some err => rfl
  | none =>
    simp only []
    cases env.NewClient cfg with
    | error err => rfl
    | ok s0 =>
      simp only []
      rcases ScanTables env.client cfg.Database s0 with ⟨res, s1⟩
      cases res with
      | error err => rfl
      | ok tables =>
        simp only []
        split
        · rfl
        · split <;> rfl

theorem Execute_sql {σ : Type} (cl : Client σ) (e : Executor) (table : TableInfo)
    (timeCol : TimeColumn) (days : Int) (s : σ) :
    (Execute cl e table timeCol days s).1.SQL
      = generateTTLSQL e table.Database table.Table timeCol days := by
  unfold Execute
  simp only []
  split
  · rfl
  · split <;> rfl

/-- The outcome the loop body adds is skipped, or carries the statement built
on the configured retention. -/
theorem loopBody_sql {σ : Type} (cl : Client σ) (cfg : Config) (exec : Executor)
    (total i : Int) (table : TableInfo) (st : LoopState σ) :
    ∃ r, (loopBody cl cfg exec total i table st).rep.results = st.rep.results ++ [r]
      ∧ (r.Skipped = false →
          ∃ timeCol, r.SQL = generateTTLSQL exec r.Database r.Table timeCol cfg.RetentionDays) := by
  unfold loopBody
  rcases DetectTimeColumn cl table.Database table.Table table.TimeColumns st.world with ⟨res, s1⟩
  cases res with
  | error e =>
    refine ⟨_, rfl, ?_⟩
    intro h
    simp at h
  | ok timeCol =>
    refine ⟨(Execute cl exec table timeCol cfg.RetentionDays s1).1, rfl, ?_⟩
    intro _
    refine ⟨timeCol, ?_⟩
    rw [Execute_sql, (Execute_names cl exec table timeCol cfg.RetentionDays s1).1,
      (Execute_names cl exec table timeCol cfg.RetentionDays s1).2]

theorem tableLoop_forall {σ : Type} (cl : Client σ) (cfg : Config) (exec : Executor)
    (total : Int) (P : ExecutionResult → Prop)
    (hP : ∀ (i : Int) (table : TableInfo) (st : LoopState σ),
      ∃ r, (loopBody cl cfg exec total i table st).rep.results = st.rep.results ++ [r] ∧ P r)
    (tables : List TableInfo) : ∀ (i : Int) (st : LoopState σ),
    ∃ rs, (tableLoop cl cfg exec total i tables st).rep.results = st.rep.results ++ rs
      ∧ ∀ r ∈ rs, P r := by
  induction tables with
  | nil => intro i st; exact ⟨[], by simp [tableLoop], by simp⟩
  | cons table rest ih =>
    intro i st
    obtain ⟨r, hr, hp⟩ := hP i table st
    obtain ⟨rs, hrs, hall⟩ := ih (i + 1) (loopBody cl cfg exec total i table st)
    refine ⟨r :: rs, ?_, ?_⟩
    · rw [tableLoop, hrs, hr]
      simp
    · intro x hx
      rcases List.mem_cons.1 hx with h | h
      · rw [h]; exact hp
      · exact hall x h

theorem processTables_sql {σ : Type} (cl : Client σ) (cfg : Config) (tables : List TableInfo)
    (s : σ) :
    ∀ r ∈ (processTables cl cfg tables s).rep.results, r.Skipped = false →
      ∃ timeCol, r.SQL = generateTTLSQL { dryRun := cfg.DryRun, verbose := cfg.Verbose }
        r.Database r.Table timeCol cfg.RetentionDays := by
  obtain ⟨rs, hrs, hall⟩ := tableLoop_forall cl cfg
    { dryRun := cfg.DryRun, verbose := cfg.Verbose } (tables.length : Int) _
    (fun i table st => loopBody_sql cl cfg _ (tables.length : Int) i table st) tables 0
    { rep := NewReporter cfg.Verbose cfg.DryRun, world := s, sleeps := [] }
  have hres : (processTables cl cfg tables s).rep.results = rs := by
    unfold processTables
    rw [hrs]
    rfl
  rw [hres]
  exact hall

/-- A run that fails validation has no effect at all. -/
theorem runEffects_invalid {σ : Type} (env : Env σ) (cfg : Config) (err : GoError)
    (hv : cfg.Validate = some err) :
    runEffects env cfg
      = { err := some (GoError.wrap "配置验证失败: " err), world := none, outcomes := [],
          sleeps := [] } := by
  unfold runEffects
  rw [hv]

/-- The outcomes of a run are those of the table loop of a valid
configuration, or there are none. -/
theorem runEffects_outcomes {σ : Type} (env : Env σ) (cfg : Config) :
    (runEffects env cfg).outcomes = []
    ∨ (cfg.Validate = none ∧ ∃ tables s1,
        (runEffects env cfg).outcomes = (processTables env.client cfg tables s1).rep.results) := by
  unfold runEffects
  cases hv : cfg.Validate with
  | some err => exact Or.inl rfl
  | none =>
    simp only []
    cases env.NewClient cfg with
    | error err => exact Or.inl rfl
    | ok s0 =>
      simp only []
      rcases ScanTables env.client cfg.Database s0 with ⟨res, s1⟩
      cases res with
      | error err => exact Or.inl rfl
      | ok tables =>
        simp only []
        split
        · exact Or.inl rfl
        · split
          · exact Or.inl rfl
          · exact Or.inr ⟨trivial, tables, s1, rfl⟩

theorem Execute_congr {σ : Type} (cl : Client σ)
    (exec2 : String → List Value → σ → Option GoError × σ) (e : Executor) (table : TableInfo)
    (timeCol : TimeColumn) (days : Int) (s : σ)
    (h : exec2 (generateTTLSQL e table.Database table.Table timeCol days) [] s
      = cl.Exec (generateTTLSQL e table.Database table.Table timeCol days) [] s) :
    Execute { Query := cl.Query, Exec := exec2 } e table timeCol days s
      = Execute cl e table timeCol days s := by
  unfold Execute
  simp only [h]

theorem scanLoop_Exec_indep {σ : Type} (cl : Client σ)
    (exec2 : String → List Value → σ → Option GoError × σ) (rows : List Row) :
    ∀ (tables : List TableInfo) (s : σ),
    scanLoop { Query := cl.Query, Exec := exec2 } rows tables s = scanLoop cl rows tables s := by
  induction rows with
  | nil => intro tables s; rfl
  | cons row rest ih =>
    intro tables s
    rw [scanLoop, scanLoop]
    have hs : ∀ db table s, scanTimeColumns { Query := cl.Query, Exec := exec2 } db table s
        = scanTimeColumns cl db table s := fun _ _ _ => rfl
    simp only [ih, hs]

theorem ScanTables_Exec_indep {σ : Type} (cl : Client σ)
    (exec2 : String → List Value → σ → Option GoError × σ) (database : String) (s : σ) :
    ScanTables { Query := cl.Query, Exec := exec2 } database s = ScanTables cl database s := by
  unfold ScanTables
  simp only [scanLoop_Exec_indep]

/-- The loop body consults the execution collaborator only on statements built
on the configured retention. -/
theorem loopBody_congr {σ : Type} (cl : Client σ)
    (exec2 : String → List Value → σ → Option GoError × σ) (cfg : Config) (exec : Executor)
    (hx : ∀ (database table : String) (timeCol : TimeColumn) (s : σ),
      exec2 (generateTTLSQL exec database table timeCol cfg.RetentionDays) [] s
        = cl.Exec (generateTTLSQL exec database table timeCol cfg.RetentionDays) [] s)
    (total i : Int) (table : TableInfo) (st : LoopState σ) :
    loopBody { Query := cl.Query, Exec := exec2 } cfg exec total i table st
      = loopBody cl cfg exec total i table st := by
  unfold loopBody
  rw [DetectTimeColumn_Exec_indep]
  rcases DetectTimeColumn cl table.Database table.Table table.TimeColumns st.world with ⟨res, s1⟩
  cases res with
  | error e => rfl
  | ok timeCol =>
    simp only []
    rw [Execute_congr cl exec2 exec table timeCol cfg.RetentionDays s1 (hx _ _ _ _)]

theorem tableLoop_congr {σ : Type} (cl : Client σ)
    (exec2 : String → List Value → σ → Option GoError × σ) (cfg : Config) (exec : Executor)
    (hx : ∀ (database table : String) (timeCol : TimeColumn) (s : σ),
      exec2 (generateTTLSQL exec database table timeCol cfg.RetentionDays) [] s
        = cl.Exec (generateTTLSQL exec database table timeCol cfg.RetentionDays) [] s)
    (total : Int) (tables : List TableInfo) : ∀ (i : Int) (st : LoopState σ),
    tableLoop { Query := cl.Query, Exec := exec2 } cfg exec total i tables st
      = tableLoop cl cfg exec total i tables st := by
  induction tables with
  | nil => intro i st; rfl
  | cons table rest ih =>
    intro i st
    rw [tableLoop, tableLoop, loopBody_congr cl exec2 cfg exec hx, ih]

/-- A run hands to the execution collaborator only statements built on the
configured retention: what the collaborator would answer to any other
statement does not change the run. -/
theorem runEffects_congr {σ : Type} (env : Env σ)
    (exec2 : String → List Value → σ → Option GoError × σ) (cfg : Config)
    (hx : ∀ (database table : String) (timeCol : TimeColumn) (s : σ),
      exec2 (generateTTLSQL { dryRun := cfg.DryRun, verbose := cfg.Verbose } database table
          timeCol cfg.RetentionDays) [] s
        = env.client.Exec (generateTTLSQL { dryRun := cfg.DryRun, verbose := cfg.Verbose }
            database table timeCol cfg.RetentionDays) [] s) :
    runEffects { NewClient := env.NewClient,
                 client := { Query := env.client.Query, Exec := exec2 },
                 confirm := env.confirm } cfg
      = runEffects env cfg := by
  unfold runEffects
  simp only [ScanTables_Exec_indep, processTables, tableLoop_congr env.client exec2 cfg _ hx]

/-- C12: `Validate` returns an error for every configuration with
`RetentionDays <= 0`, and returns nil exactly when the host, user and database
are non-empty, the port is between 1 and 65535 and the retention is positive.
`run` validates before anything else: on a validation error it returns that
error wrapped and has no effect, whatever the collaborators would have done
(no connection state, no outcome, no pause), so no table is scanned. A run
that leaves a connection state or an outcome has a valid configuration with a
positive retention; every outcome that is not skipped carries the statement
synthesized on that retention, and the run hands no other statement to the
execution collaborator. -/
theorem C12_Validate_guards_retention (c : Config) :
    (c.RetentionDays ≤ 0 → c.Validate ≠ none)
    ∧ (c.Validate = none
        ↔ c.Host ≠ "" ∧ 1 ≤ c.Port ∧ c.Port ≤ 65535 ∧ c.User ≠ "" ∧ c.Database ≠ ""
          ∧ c.RetentionDays > 0)
    ∧ (∀ err, c.Validate = some err →
        ∀ (σ : Type) (env : Env σ), run env c = some (GoError.wrap "配置验证失败: " err))
    ∧ (∀ (σ : Type) (env : Env σ),
        (∀ err, run env c ≠ some (GoError.wrap "配置验证失败: " err)) → c.RetentionDays > 0)
    ∧ (∀ (σ : Type) (env : Env σ), run env c = (runEffects env c).err)
    ∧ (∀ err, c.Validate = some err → ∀ (σ : Type) (env : Env σ),
        runEffects env c
          = { err := some (GoError.wrap "配置验证失败: " err), world := none, outcomes := [],
              sleeps := [] })
    ∧ (∀ (σ : Type) (env : Env σ),
        ((runEffects env c).world ≠ none ∨ (runEffects env c).outcomes ≠ []
          ∨ (runEffects env c).sleeps ≠ []) →
        c.Validate = none ∧ c.RetentionDays > 0)
    ∧ (∀ (σ : Type) (env : Env σ), ∀ r ∈ (runEffects env c).outcomes,
        c.RetentionDays > 0
        ∧ (r.Skipped = false →
            ∃ timeCol, r.SQL = generateTTLSQL { dryRun := c.DryRun, verbose := c.Verbose }
              r.Database r.Table timeCol c.RetentionDays))
    ∧ (∀ (σ : Type) (env : Env σ) (exec2 : String → List Value → σ → Option GoError × σ),
        (∀ (database table : String) (timeCol : TimeColumn) (s : σ),
          exec2 (generateTTLSQL { dryRun := c.DryRun, verbose := c.Verbose } database table
              timeCol c.RetentionDays) [] s
            = env.client.Exec (generateTTLSQL { dryRun := c.DryRun, verbose := c.Verbose }
                database table timeCol c.RetentionDays) [] s) →
        runEffects { NewClient := env.NewClient,
                     client := { Query := env.client.Query, Exec := exec2 },
                     confirm := env.confirm } c
          = runEffects env c) := by
  have hiff := Validate_none_iff c
  have hvalid : ∀ (σ : Type) (env : Env σ),
      ((runEffects env c).world ≠ none ∨ (runEffects env c).outcomes ≠ []
        ∨ (runEffects env c).sleeps ≠ []) →
      c.Validate = none ∧ c.RetentionDays > 0 := by
    intro σ env h
    cases hv : c.Validate with
    | none => exact ⟨rfl, (hiff.1 hv).2.2.2.2.2⟩
    | some err =>
      exfalso
      rw [runEffects_invalid env c err hv] at h
      simp at h
  refine ⟨?_, hiff, ?_, ?_, ?_, ?_, hvalid, ?_, ?_⟩
  · intro h hv
    have := (hiff.1 hv).2.2.2.2.2
    omega
  · intro err hv σ env
    unfold run
    rw [hv]
  · intro σ env hrun
    cases hv : c.Validate with
    | none => exact (hiff.1 hv).2.2.2.2.2
    | some err =>
      exfalso
      apply hrun err
      unfold run
      rw [hv]
  · intro σ env
    exact run_eq_runEffects_err env c
  · intro err hv σ env
    exact runEffects_invalid env c err hv
  · intro σ env r hr
    have hne : (runEffects env c).outcomes ≠ [] := List.ne_nil_of_mem hr
    refine ⟨(hvalid σ env (Or.inr (Or.inl hne))).2, ?_⟩
    rcases runEffects_outcomes env c with h0 | ⟨_, tables, s1, hout⟩
    · exact absurd h0 hne
    · rw [hout] at hr
      exact processTables_sql env.client c tables s1 r hr
  · intro σ env exec2 hx
    exact runEffects_congr env exec2 c hx

set_option maxRecDepth 100000 in
/-- C12 at a sample, against a database that records every text it receives:
with a retention of zero days the run returns the validation error and the
database is never reached; with thirty days the two statements it receives
carry `INTERVAL 30 DAY`. -/
theorem C12_witness_zero_retention_rejected :
    zeroRetentionConfig.RetentionDays ≤ 0
    ∧ zeroRetentionConfig.Validate ≠ none
    ∧ runEffects recordingEnv zeroRetentionConfig
        = { err := some (GoError.wrap "配置验证失败: "
                  (GoError.new "invalid retention days: 0, must be greater than 0")),
            world := none, outcomes := [], sleeps := [] }
    ∧ (runEffects recordingEnv sampleConfig).world.map
          (fun texts => texts.filter (fun q => HasPrefix q "ALTER"))
        = some ["ALTER TABLE `db`.`events` MODIFY TTL toDateTime(`timestamp` / 1000000000) + INTERVAL 30 DAY",
                "ALTER TABLE `db`.`logs` MODIFY TTL toDateTime(`timestamp` / 1000000000) + INTERVAL 30 DAY"] :=
  ⟨by decide,
    (C12_Validate_guards_retention zeroRetentionConfig).1 (by decide),
    (C12_Validate_guards_retention zeroRetentionConfig).2.2.2.2.2.1
      (GoError.new "invalid retention days: 0, must be greater than 0") (by decide)
      (List String) recordingEnv,
    by decide⟩

end TTLTool
